import Mathlib

/-!
# Container lifecycle and attach connector

A shallow embedding of `lib/portlayer/exec/base.go` (container base: start,
refresh, graceful shutdown with signal escalation, hard power-off fallback),
of `lib/portlayer/attach/connector.go` (the session registry of the attach
connector and the processing of incoming connections), of the container
handlers of `lib/apiservers/portlayer/restapi/handlers/containers_handlers.go`,
of the child pid table of `cmd/tether/tether.go`, of `toggleActive` of
`lib/portlayer/task/common.go` and of the key calculation of
`pkg/vsphere/extraconfig/keys.go`.

The virtualization backend is external.  Its replies are given by a script:
the reply to the n-th call of each primitive.  Every sequential execution of
the code corresponds to one script, so a statement over all scripts is a
statement over all backend behaviours.  The calls made are recorded in a log.
-/

namespace Vic

/-! ## Go values -/

/-- Outcome of running a Go function: a normal return or a run-time panic. -/
inductive Exit (α : Type) where
  | ret (a : α)
  | panic
  deriving DecidableEq, Repr

/-- Power states of a virtual machine (types.VirtualMachinePowerState). -/
inductive PowerState where
  | poweredOff
  | poweredOn
  | suspended
  deriving DecidableEq, Repr

/-- One entry of a fault message list (types.LocalizableMessage). -/
structure LocalizableMessage where
  Key : String
  Message : String
  deriving DecidableEq, Repr

/-- The fault carried by a task error, as far as `stop` tells faults apart. -/
inductive Fault where
  | InvalidPowerState (ExistingState : PowerState)
  | GenericVmConfigFault (FaultMessage : List LocalizableMessage)
  | other (name : String)
  deriving DecidableEq, Repr

/-- Go error values.  `errorString` is what `errors.New` and `fmt.Errorf`
build; `DeadlineExceeded` and `Canceled` are the two errors a context reports;
`taskError` is govmomi's `task.Error`; `backend` is any other error.  `EOF` is
the sentinel `io.EOF`; `ConcurrentAccessError`, `RemovePowerError` and
`NotFoundError` are the error types of package exec that the API handlers
tell apart, each with its message. -/
inductive GoError where
  | NotYetExistError (ID : String)
  | errorString (s : String)
  | DeadlineExceeded
  | Canceled
  | taskError (fault : Fault) (text : String)
  | backend (text : String)
  | EOF
  | ConcurrentAccessError (text : String)
  | RemovePowerError (text : String)
  | NotFoundError (text : String)
  deriving DecidableEq, Repr

/-- The `Error()` method. -/
def GoError.Error : GoError → String
  | .NotYetExistError ID => ID ++ " is not completely created"
  | .errorString s => s
  | .DeadlineExceeded => "context deadline exceeded"
  | .Canceled => "context canceled"
  | .taskError _ text => text
  | .backend text => text
  | .EOF => "EOF"
  | .ConcurrentAccessError text => text
  | .RemovePowerError text => text
  | .NotFoundError text => text

/-- Formatting of a string slice under the verb `%s`. -/
def fmtStrings (xs : List String) : String :=
  "[" ++ " ".intercalate xs ++ "]"

/-- Wrap-around of a 64-bit signed integer. -/
def wrapInt64 (x : Int) : Int :=
  (x + 2 ^ 63) % 2 ^ 64 - 2 ^ 63

/-- One second as a `time.Duration` (nanoseconds). -/
def Second : Int := 1000000000

/-- The signal name `ssh.SIGKILL`. -/
def SIGKILL : String := "KILL"

/-- The signal name `ssh.SIGTERM`. -/
def SIGTERM : String := "TERM"

/-! ## Backend -/

/-- A call made to the backend. -/
inductive Call where
  | ProcessManager
  | StartProgram (Username ProgramPath Arguments : String)
  | WaitForPowerState (max : Int) (state : PowerState)
  | PowerOff
  | PowerOn
  | WaitForKeyInExtraConfig (key : String)
  | Properties
  deriving DecidableEq, Repr

/-- What a wait for a power state produced: the error returned by
`vm.WaitForPowerState`, and what the timeout context's `Err()` reports then. -/
structure WaitReply where
  err : Option GoError
  ctxErr : Option GoError
  deriving DecidableEq, Repr

/-- Backend configuration snapshot (types.VirtualMachineConfigInfo). -/
structure VirtualMachineConfigInfo where
  ChangeVersion : String
  ExtraConfig : List (String × String)
  deriving DecidableEq, Repr

/-- Backend runtime snapshot (types.VirtualMachineRuntimeInfo). -/
structure VirtualMachineRuntimeInfo where
  PowerState : PowerState
  deriving DecidableEq, Repr

/-- What a fetch of the properties "config" and "runtime" produced: the error,
and the object filled in (`mo.VirtualMachine`), whose `Config` is a pointer
and whose `Runtime` is a value. -/
structure PropertiesReply where
  err : Option GoError
  Config : Option VirtualMachineConfigInfo
  Runtime : VirtualMachineRuntimeInfo
  deriving DecidableEq, Repr

/-- The backend object of a container: the reply to the n-th call of each
primitive.  `WaitForKeyInExtraConfig` replies with the value published and an
error. -/
structure VirtualMachine where
  ProcessManager : Nat → Option GoError
  StartProgram : Nat → Option GoError
  WaitForPowerState : Nat → WaitReply
  PowerOff : Nat → Option GoError
  PowerOn : Nat → Option GoError := fun _ => none
  WaitForKeyInExtraConfig : Nat → String × Option GoError := fun _ => ("true", none)
  Properties : Nat → PropertiesReply :=
    fun _ => ⟨some (GoError.backend "unavailable"), none, ⟨PowerState.poweredOff⟩⟩

/-- The calls made so far, oldest first. -/
abbrev Log := List Call

/-- Number of `ProcessManager` calls in a log. -/
def Log.nProcessManager (log : Log) : Nat :=
  log.countP (fun c => match c with | .ProcessManager => true | _ => false)

/-- Number of `StartProgram` calls in a log. -/
def Log.nStartProgram (log : Log) : Nat :=
  log.countP (fun c => match c with | .StartProgram _ _ _ => true | _ => false)

/-- Number of `WaitForPowerState` calls in a log. -/
def Log.nWaitForPowerState (log : Log) : Nat :=
  log.countP (fun c => match c with | .WaitForPowerState _ _ => true | _ => false)

/-- Number of `PowerOff` calls in a log. -/
def Log.nPowerOff (log : Log) : Nat :=
  log.countP (fun c => match c with | .PowerOff => true | _ => false)

/-- Number of `PowerOn` calls in a log. -/
def Log.nPowerOn (log : Log) : Nat :=
  log.countP (fun c => match c with | .PowerOn => true | _ => false)

/-- Number of `WaitForKeyInExtraConfig` calls in a log. -/
def Log.nWaitForKeyInExtraConfig (log : Log) : Nat :=
  log.countP (fun c => match c with | .WaitForKeyInExtraConfig _ => true | _ => false)

/-- Number of `Properties` calls in a log. -/
def Log.nProperties (log : Log) : Nat :=
  log.countP (fun c => match c with | .Properties => true | _ => false)

/-! ## Container base -/

/-- The part of a session configuration used here (executor.SessionConfig). -/
structure SessionConfig where
  StopSignal : String
  deriving DecidableEq, Repr

/-- The part of the executor configuration used here.  `Sessions` is a map
from session id to a pointer that may be nil. -/
structure ExecutorConfig where
  ID : String
  Sessions : String → Option SessionConfig

/-- Fields common between Handle and Container; `vm` is nil until the backend
object exists. -/
structure containerBase where
  ExecConfig : ExecutorConfig
  Config : Option VirtualMachineConfigInfo
  Runtime : Option VirtualMachineRuntimeInfo
  vm : Option VirtualMachine

/-- `containerBase.startGuestProgram`: obtain the process manager, then start
the program in the guest, authenticating as the container id. -/
def containerBase.startGuestProgram (c : containerBase) (name args : String) (log : Log) :
    Option GoError × Log :=
  match c.vm with
  | none => (some (.NotYetExistError c.ExecConfig.ID), log)
  | some vm =>
    let log1 := log ++ [Call.ProcessManager]
    match vm.ProcessManager log.nProcessManager with
    | some err => (some err, log1)
    | none =>
      (vm.StartProgram log1.nStartProgram,
        log1 ++ [Call.StartProgram c.ExecConfig.ID name args])

/-- `containerBase.waitForPowerState`: wait under a timeout context; the flag
tells whether the error returned is the context's own error. -/
def containerBase.waitForPowerState (c : containerBase) (max : Int) (state : PowerState)
    (log : Log) : Exit (Bool × Option GoError) × Log :=
  match c.vm with
  | none => (.panic, log)
  | some vm =>
    let reply := vm.WaitForPowerState log.nWaitForPowerState
    let log1 := log ++ [Call.WaitForPowerState max state]
    match reply.err with
    | some err => (.ret (decide (reply.ctxErr = some err), some err), log1)
    | none => (.ret (false, none), log1)

/-- The per-signal wait of `shutdown` (base.go, lines 267 to 270): ten seconds
unless `waitTime` is given and positive; the product with `time.Second` is a
64-bit multiplication. -/
def shutdownWait (waitTime : Option Int) : Int :=
  match waitTime with
  | some w => if w > 0 then wrapInt64 (w * Second) else 10 * Second
  | none => 10 * Second

/-- The stop signals of `shutdown` (base.go, lines 273 to 276): the session's
stop signal, replaced by TERM when it is empty, then KILL. -/
def stopSignals (cs : SessionConfig) : List String :=
  let stop := [cs.StopSignal, SIGKILL]
  if cs.StopSignal = "" then [SIGTERM, SIGKILL] else stop

/-- The loop of `shutdown` (base.go, lines 278 to 303) over the signals still
to send; `stop` is the whole signal list, used in the final message. -/
def shutdownLoop (c : containerBase) (id : String) (wait : Int) (stop : List String) :
    List String → Log → Exit (Option GoError) × Log
  | [], log =>
    (.ret (some (.errorString
      ("failed to shutdown " ++ id ++ " via kill signals " ++ fmtStrings stop))), log)
  | sig :: rest, log =>
    let msg := "sending kill -" ++ sig ++ " " ++ id
    match c.startGuestProgram "kill" sig log with
    | (some err, log1) => (.ret (some (.errorString (msg ++ ": " ++ err.Error))), log1)
    | (none, log1) =>
      match c.waitForPowerState wait .poweredOff log1 with
      | (.panic, log2) => (.panic, log2)
      | (.ret (_, none), log2) => (.ret none, log2)
      | (.ret (timeout, some err), log2) =>
        if !timeout then (.ret (some err), log2)
        else shutdownLoop c id wait stop rest log2

/-- `containerBase.shutdown`: clean shutdown by signals of increasing force.
Reading the stop signal of a session that is nil panics. -/
def containerBase.shutdown (c : containerBase) (waitTime : Option Int) (log : Log) :
    Exit (Option GoError) × Log :=
  let id := c.ExecConfig.ID
  match c.vm with
  | none => (.ret (some (.NotYetExistError id)), log)
  | some _ =>
    let wait := shutdownWait waitTime
    match c.ExecConfig.Sessions id with
    | none => (.panic, log)
    | some cs =>
      let stop := stopSignals cs
      shutdownLoop c id wait stop stop log

/-- `containerBase.stop`: graceful shutdown, then hard power-off when that
failed.  `vmNotSuspendedKey` is the message key of a power-off cancelled by a
guest shutdown; the constant is declared outside this file. -/
def containerBase.stop (vmNotSuspendedKey : String) (c : containerBase)
    (waitTime : Option Int) (log : Log) : Exit (Option GoError) × Log :=
  let id := c.ExecConfig.ID
  match c.vm with
  | none => (.ret (some (.NotYetExistError id)), log)
  | some vm =>
    match c.shutdown waitTime log with
    | (.panic, log1) => (.panic, log1)
    | (.ret none, log1) => (.ret none, log1)
    | (.ret (some _), log1) =>
      let log2 := log1 ++ [Call.PowerOff]
      match vm.PowerOff log1.nPowerOff with
      | none => (.ret none, log2)
      | some err =>
        match err with
        | .taskError (.InvalidPowerState ExistingState) _ =>
          if ExistingState = .poweredOff then (.ret none, log2) else (.ret (some err), log2)
        | .taskError (.GenericVmConfigFault FaultMessage) _ =>
          match FaultMessage with
          | m :: _ =>
            if m.Key = vmNotSuspendedKey then (.ret none, log2) else (.ret (some err), log2)
          | [] => (.ret (some err), log2)
        | _ => (.ret (some err), log2)

/-- `containerBase.start`: power on, then wait for the guest to publish the
launch status of the primary session. -/
def containerBase.start (c : containerBase) (log : Log) : Option GoError × Log :=
  let id := c.ExecConfig.ID
  match c.vm with
  | none => (some (.NotYetExistError id), log)
  | some vm =>
    let log1 := log ++ [Call.PowerOn]
    match vm.PowerOn log.nPowerOn with
    | some err => (some err, log1)
    | none =>
      let key := "guestinfo.vice..sessions|" ++ id ++ ".started"
      let reply := vm.WaitForKeyInExtraConfig log1.nWaitForKeyInExtraConfig
      let log2 := log1 ++ [Call.WaitForKeyInExtraConfig key]
      match reply.2 with
      | some err =>
        (some (.errorString ("unable to wait for process launch status: " ++ err.Error)), log2)
      | none =>
        if reply.1 ≠ "true" then (some (.errorString reply.1), log2)
        else (none, log2)

/-- `containerBase.updates`: fetch config and runtime and build a new base from
them.  The result carries the receiver as it is afterwards.  `Decode` stands
for `extraconfig.Decode` into a fresh executor configuration; it is declared
outside this file. -/
def containerBase.updates (Decode : List (String × String) → ExecutorConfig)
    (c : containerBase) (log : Log) :
    Exit (Option containerBase × Option GoError) × containerBase × Log :=
  match c.vm with
  | none => (.ret (none, some (.NotYetExistError c.ExecConfig.ID)), c, log)
  | some vm =>
    let o := vm.Properties log.nProperties
    let log1 := log ++ [Call.Properties]
    match o.err with
    | some err => (.ret (none, some err), c, log1)
    | none =>
      match o.Config with
      | none => (.panic, c, log1)
      | some config =>
        let base : containerBase :=
          { vm := c.vm
            Config := some config
            Runtime := some o.Runtime
            ExecConfig := Decode config.ExtraConfig }
        (.ret (some base, none), c, log1)

/-- `containerBase.refresh`: replace the receiver by what `updates` returns.
The result carries the receiver as it is afterwards. -/
def containerBase.refresh (Decode : List (String × String) → ExecutorConfig)
    (c : containerBase) (log : Log) : Exit (Option GoError) × containerBase × Log :=
  match c.updates Decode log with
  | (.panic, c1, log1) => (.panic, c1, log1)
  | (.ret (_, some err), c1, log1) => (.ret (some err), c1, log1)
  | (.ret (none, none), c1, log1) => (.panic, c1, log1)
  | (.ret (some base, none), _, log1) =>
    match base.Config with
    | none => (.panic, base, log1)
    | some _ => (.ret none, base, log1)

/-! ## Attach connector -/

/-- An interactive session (SessionInteraction): a handle naming it, and the
reply of its `Close` method. -/
structure SessionInteraction where
  handle : Nat
  Close : Option GoError
  deriving DecidableEq, Repr

/-- A communication channel to a container: the session and the container id. -/
structure Connection where
  spty : SessionInteraction
  id : String
  deriving DecidableEq, Repr

/-- The Go map `map[string]*Connection`: keys with the pointer stored, which
may be nil.  The first pair of a key is the one in force.  `Get` and `Remove`
test `c.connections[id] != nil`, so for them a key holding nil is the same as
an absent key. -/
abbrev ConnMap := List (String × Option Connection)

/-- The two-valued lookup `conn, ok = m[id]`: `none` when the key is absent. -/
def ConnMap.lookup (m : ConnMap) (id : String) : Option (Option Connection) :=
  match m with
  | [] => none
  | (k, v) :: rest => if k = id then some v else ConnMap.lookup rest id

/-- The index expression `m[id]`: nil when the key is absent. -/
def ConnMap.index (m : ConnMap) (id : String) : Option Connection :=
  match ConnMap.lookup m id with
  | some v => v
  | none => none

/-- The builtin `delete(m, id)`. -/
def ConnMap.delete (m : ConnMap) (id : String) : ConnMap :=
  m.filter (fun e => e.1 ≠ id)

/-- The assignment `m[id] = v`. -/
def ConnMap.set (m : ConnMap) (id : String) (v : Option Connection) : ConnMap :=
  (id, v) :: ConnMap.delete m id

/-- The connector, reduced to its session registry and its debug flag. -/
structure Connector where
  connections : ConnMap
  debug : Bool
  deriving DecidableEq, Repr

/-- What a call of `Get` does: return a session, return an error, or go on to
wait on the condition variable for an insertion (the lookup missed and the
timeout is not zero). -/
inductive GetResult where
  | session (spty : SessionInteraction)
  | error (err : GoError)
  | blocks
  deriving DecidableEq, Repr

/-- `Connector.Get`, up to the point where it starts to wait. -/
def Connector.Get (c : Connector) (id : String) (timeout : Int) : GetResult × Connector :=
  match ConnMap.index c.connections id with
  | some conn => (.session conn.spty, c)
  | none =>
    if timeout = 0 then (.error (.errorString "no such connection"), c)
    else (.blocks, c)

/-- `Connector.Remove`: returns the error, the connector afterwards and the
sessions it closed. -/
def Connector.Remove (c : Connector) (id : String) :
    Option GoError × Connector × List SessionInteraction :=
  match ConnMap.index c.connections id with
  | some conn =>
    let c1 : Connector := { c with connections := ConnMap.delete c.connections id }
    if conn.id = id then (conn.spty.Close, c1, [conn.spty])
    else (none, c1, [])
  | none => (none, c, [])

/-- What `processIncoming` does on an accepted connection and on the
connector's condition variable, oldest first. -/
inductive ConnCall where
  | PurgeIncoming
  | HandshakeClient (debug : Bool)
  | Close
  | NewClientConn
  | SSHls
  | SSHAttach (id : String)
  | Broadcast
  deriving DecidableEq, Repr

/-- An accepted connection, given by what its peer does: the reply to the
n-th handshake attempt, to the set-up of the ssh client connection, to the
listing of the session ids, and to the n-th attach. -/
structure NetConn where
  HandshakeClient : Nat → Option GoError
  NewClientConn : Option GoError
  SSHls : Except GoError (List String)
  SSHAttach : Nat → Except GoError SessionInteraction

/-- How the handshake loop of `processIncoming` is left: by `break` after a
handshake that succeeded, by the `return` after end-of-stream, or by the
`return` for a nil connection. -/
inductive LoopExit where
  | aligned
  | eof
  | noConn
  deriving DecidableEq, Repr

/-- The handshake loop of `processIncoming` (connector.go, lines 158 to 182).
`n` counts the attempts made; `fuel` bounds the iterations, `none` meaning
that the loop is still running when the fuel is used up. -/
def handshakeLoop (c : Connector) (conn : Option NetConn) :
    Nat → Nat → List ConnCall → Option (LoopExit × List ConnCall)
  | 0, _, _ => none
  | fuel + 1, n, log =>
    match conn with
    | none => some (.noConn, log)
    | some nc =>
      let log1 := log ++ [ConnCall.PurgeIncoming, ConnCall.HandshakeClient c.debug]
      match nc.HandshakeClient n with
      | none => some (.aligned, log1)
      | some err =>
        if err = GoError.EOF then some (.eof, log1 ++ [ConnCall.Close])
        else handshakeLoop c conn fuel (n + 1) log1

/-- The loop of `processIncoming` over the session ids (connector.go, lines
216 to 235): attach, then store the connection under its id and wake the
waiters.  `n` counts the attaches made.  Returns the value of `err` when the
loop is left. -/
def attachLoop (nc : NetConn) :
    List String → Nat → Connector → List ConnCall → Option GoError × Connector × List ConnCall
  | [], _, c, log => (none, c, log)
  | id :: rest, n, c, log =>
    let log1 := log ++ [ConnCall.SSHAttach id]
    match nc.SSHAttach n with
    | .error err => (some err, c, log1)
    | .ok si =>
      let connection : Connection := { spty := si, id := id }
      let c1 : Connector :=
        { c with connections := ConnMap.set c.connections connection.id (some connection) }
      attachLoop nc rest (n + 1) c1 (log1 ++ [ConnCall.Broadcast])

/-- The deferred function of `processIncoming`: close the connection when
`err` is set and the connection is not nil. -/
def deferredClose (conn : Option NetConn) (err : Option GoError) (log : List ConnCall) :
    List ConnCall :=
  match err, conn with
  | some _, some _ => log ++ [ConnCall.Close]
  | _, _ => log

/-- The part of `processIncoming` after the handshake loop (connector.go,
lines 184 to 237), with the deferred close at each way out: set up the ssh
client, list the session ids and store a connection for each. -/
def sessionSetup (c : Connector) (nc : NetConn) (log : List ConnCall) :
    Connector × List ConnCall :=
  let log1 := log ++ [ConnCall.NewClientConn]
  match nc.NewClientConn with
  | some err => (c, deferredClose (some nc) (some err) log1)
  | none =>
    let log2 := log1 ++ [ConnCall.SSHls]
    match nc.SSHls with
    | .error err => (c, deferredClose (some nc) (some err) log2)
    | .ok ids =>
      match attachLoop nc ids 0 c log2 with
      | (err, c1, log3) => (c1, deferredClose (some nc) err log3)

/-- `Connector.processIncoming`: handshake on the accepted connection, then
the session set-up.  Returns the connector afterwards and the calls made, or
`none` when the handshake loop outlasts the fuel. -/
def Connector.processIncoming (c : Connector) (conn : Option NetConn) (fuel : Nat) :
    Option (Connector × List ConnCall) :=
  match handshakeLoop c conn fuel 0 [] with
  | none => none
  | some (.noConn, log) => some (c, deferredClose conn none log)
  | some (.eof, log) => some (c, deferredClose conn (some GoError.EOF) log)
  | some (.aligned, log) =>
    match conn with
    | none => some (c, log)
    | some nc => some (sessionSetup c nc log)

/-- The number of pairs a map holds under a key. -/
def ConnMap.keyCount (m : ConnMap) (id : String) : Nat :=
  m.countP (fun e => e.1 = id)

/-- The calls of `k` handshake attempts that are retried: purge, then
handshake, `k` times. -/
def retryCalls (debug : Bool) : Nat → List ConnCall
  | 0 => []
  | k + 1 => [ConnCall.PurgeIncoming, ConnCall.HandshakeClient debug] ++ retryCalls debug k

/-- The calls of a run of the attach loop in which every attach succeeds:
attach and broadcast, for each id in order. -/
def attachCalls : List String → List ConnCall
  | [] => []
  | id :: rest => [ConnCall.SSHAttach id, ConnCall.Broadcast] ++ attachCalls rest

/-- The connection as its peer is seen after `k` handshake attempts. -/
def NetConn.afterAttempts (nc : NetConn) (k : Nat) : NetConn :=
  { nc with HandshakeClient := fun n => nc.HandshakeClient (n + k) }

/-- `NewConnector`: a connector with an empty registry.  The listener and the
accept loop it starts are left out. -/
def NewConnector (debug : Bool) : Connector :=
  { connections := [], debug := debug }

/-- The connectors that `NewConnector`, runs of `processIncoming` that return,
and calls of `Remove` can produce. -/
inductive Reachable : Connector → Prop where
  | new (debug : Bool) : Reachable (NewConnector debug)
  | processIncoming (c : Connector) (conn : Option NetConn) (fuel : Nat) (c1 : Connector)
      (log : List ConnCall) :
      Reachable c → c.processIncoming conn fuel = some (c1, log) → Reachable c1
  | remove (c : Connector) (id : String) : Reachable c → Reachable (c.Remove id).2.1

/-- Every pair of the map holds a connection that is not nil and records the
key as its id. -/
def ConnMap.WellFormed (m : ConnMap) : Prop :=
  ∀ k v, (k, v) ∈ m → ∃ conn : Connection, v = some conn ∧ conn.id = k

/-! ## API handlers -/

/-- Container states of package exec.  The handlers name three of them; any
other value of the type is `other`. -/
inductive State where
  | StateRunning
  | StateStopped
  | StateCreated
  | other (n : Nat)
  deriving DecidableEq, Repr

/-- The part of `exec.Handle` the handlers use: the executor configuration (a
pointer the handlers test against nil), the target state, and the handle's
name as `String()` gives it. -/
structure Handle where
  ExecConfig : Option ExecutorConfig
  targetState : State
  key : String

/-- Modelled from the spec: `Handle.SetTargetState`, whose code is not in the
sources at hand, is a pure local mutation of the handle's target. -/
def Handle.SetTargetState (h : Handle) (s : State) : Handle :=
  { h with targetState := s }

/-- The part of `exec.Container` the handlers use. -/
structure Container where
  ID : String
  CurrentState : State
  deriving DecidableEq, Repr

/-- Package exec as the handlers see it: the handle and container lookups and
the replies of `Commit` and `Remove`. -/
structure Exec where
  GetHandle : String → Option Handle
  GetContainer : String → Option Handle
  Container : String → Option Container
  Commit : Handle → Option Int → Option GoError
  Remove : Vic.Container → Option GoError

/-- A call a handler makes into package exec. -/
inductive ExecCall where
  | GetHandle (handle : String)
  | GetContainer (id : String)
  | Container (id : String)
  | Commit (key : String) (waitTime : Option Int)
  | Remove (id : String)
  | SetTargetState (key : String) (state : State)
  deriving DecidableEq, Repr

/-- The responses the handlers build. -/
inductive Responder where
  | StateChangeNotFound
  | StateChangeDefault (code : Nat) (Message : String)
  | StateChangeOK (payload : String)
  | GetStateNotFound
  | GetStateDefault (code : Nat)
  | GetStateOK (Handle State : String)
  | CommitNotFound (Message : String)
  | CommitConflict (Message : String)
  | CommitDefault (code : Nat) (Message : String)
  | CommitOK
  | ContainerRemoveNotFound
  | ContainerRemoveConflict (Message : String)
  | ContainerRemoveInternalServerError
  | ContainerRemoveOK
  deriving DecidableEq, Repr

/-- The status code `http.StatusServiceUnavailable`. -/
def StatusServiceUnavailable : Nat := 503

/-- The switch of `StateChangeHandler` (containers_handlers.go, lines 155 to
165): the state a name stands for, `none` in the default case. -/
def stateFromName (name : String) : Option State :=
  if name = "RUNNING" then some State.StateRunning
  else if name = "STOPPED" then some State.StateStopped
  else if name = "CREATED" then some State.StateCreated
  else none

/-- The switch of `GetStateHandler` (containers_handlers.go, lines 188 to
201): the name reported for a state, `none` in the default case. -/
def nameFromState (state : State) : Option String :=
  match state with
  | .StateRunning => some "RUNNING"
  | .StateStopped => some "STOPPED"
  | .StateCreated => some "CREATED"
  | .other _ => none

/-- `StateChangeHandler`: the response, the handle afterwards (when one was
found) and the calls made. -/
def StateChangeHandler (x : Exec) (handle state : String) :
    Exit Responder × Option Handle × List ExecCall :=
  match x.GetHandle handle with
  | none => (.ret .StateChangeNotFound, none, [ExecCall.GetHandle handle])
  | some h =>
    match h.ExecConfig with
    | none => (.panic, some h, [ExecCall.GetHandle handle])
    | some _ =>
      match stateFromName state with
      | none =>
        (.ret (.StateChangeDefault StatusServiceUnavailable "unknown state"), some h,
          [ExecCall.GetHandle handle])
      | some st =>
        let h1 := h.SetTargetState st
        (.ret (.StateChangeOK h1.key), some h1,
          [ExecCall.GetHandle handle, ExecCall.SetTargetState h.key st])

/-- `GetStateHandler`: the response and the calls made. -/
def GetStateHandler (x : Exec) (handle : String) : Responder × List ExecCall :=
  match x.GetHandle handle with
  | none => (.GetStateNotFound, [ExecCall.GetHandle handle])
  | some h =>
    match h.ExecConfig with
    | none => (.GetStateNotFound, [ExecCall.GetHandle handle])
    | some cfg =>
      let calls := [ExecCall.GetHandle handle, ExecCall.Container cfg.ID]
      match x.Container cfg.ID with
      | none => (.GetStateNotFound, calls)
      | some container =>
        match nameFromState container.CurrentState with
        | none => (.GetStateDefault StatusServiceUnavailable, calls)
        | some state => (.GetStateOK h.key state, calls)

/-- `CommitHandler`: the response and the calls made. -/
def CommitHandler (x : Exec) (handle : String) (WaitTime : Option Int) :
    Responder × List ExecCall :=
  match x.GetHandle handle with
  | none => (.CommitNotFound "container not found", [ExecCall.GetHandle handle])
  | some h =>
    let calls := [ExecCall.GetHandle handle, ExecCall.Commit h.key WaitTime]
    match x.Commit h WaitTime with
    | some err =>
      match err with
      | .ConcurrentAccessError _ => (.CommitConflict err.Error, calls)
      | _ => (.CommitDefault StatusServiceUnavailable err.Error, calls)
    | none => (.CommitOK, calls)

/-- `RemoveContainerHandler`: the response and the calls made. -/
def RemoveContainerHandler (x : Exec) (ID : String) : Responder × List ExecCall :=
  match x.GetContainer ID with
  | none => (.ContainerRemoveNotFound, [ExecCall.GetContainer ID])
  | some h =>
    match h.ExecConfig with
    | none => (.ContainerRemoveNotFound, [ExecCall.GetContainer ID])
    | some cfg =>
      let calls := [ExecCall.GetContainer ID, ExecCall.Container cfg.ID]
      match x.Container cfg.ID with
      | none => (.GetStateNotFound, calls)
      | some container =>
        let calls1 := calls ++ [ExecCall.Remove container.ID]
        match x.Remove container with
        | some err =>
          match err with
          | .NotFoundError _ => (.ContainerRemoveNotFound, calls1)
          | .RemovePowerError _ => (.ContainerRemoveConflict err.Error, calls1)
          | _ => (.ContainerRemoveInternalServerError, calls1)
        | none => (.ContainerRemoveOK, calls1)

/-! ## Child pid table of the tether -/

/-- The part of `metadata.Cmd` kept here. -/
structure Cmd where
  Path : String
  Args : List String
  deriving DecidableEq, Repr

/-- The Go map `map[int]*metadata.Cmd` of the tether: pids with the pointer
stored, which may be nil.  A map holds each key once. -/
abbrev PidTable := List (Int × Option Cmd)

/-- The two-valued lookup `cmd, ok := childPidTable[pid]`. -/
def PidTable.lookup (t : PidTable) (pid : Int) : Option (Option Cmd) :=
  match t with
  | [] => none
  | (k, v) :: rest => if k = pid then some v else PidTable.lookup rest pid

/-- The builtin `delete(childPidTable, pid)`. -/
def PidTable.delete (t : PidTable) (pid : Int) : PidTable :=
  t.filter (fun e => e.1 ≠ pid)

/-- `RemoveChildPid`: the value and the flag returned, and the table
afterwards. -/
def RemoveChildPid (childPidTable : PidTable) (pid : Int) : (Option Cmd × Bool) × PidTable :=
  let r : Option Cmd × Bool :=
    match PidTable.lookup childPidTable pid with
    | some cmd => (cmd, true)
    | none => (none, false)
  (r, PidTable.delete childPidTable pid)

/-- `LenChildPid`: the number of entries. -/
def LenChildPid (childPidTable : PidTable) : Int :=
  childPidTable.length

/-! ## PCI slots -/

/-- Formatting of a number under the verb `%02x`. -/
def fmtHex02 (n : Nat) : String :=
  let digits := Nat.toDigits 16 n
  String.mk (List.replicate (2 - digits.length) '0' ++ digits)

/-- The function `path.Join` on elements that are clean and not empty. -/
def pathJoin (elems : List String) : String :=
  "/".intercalate elems

/-- Modelled from the spec: `slotToPCIPath` of lib/tether, of which only the
test is among the sources.  A slot below 32 is a device on bus 0; a slot of 32
or more is a device behind the PCI bridge numbered 0x11 + (slot div 32) - 1,
found under that bridge by its slot mod 32.  `pciDevPath` is the directory of
the PCI devices. -/
def slotToPCIPath (pciDevPath : String) (pciSlot : Int) : String × Option GoError :=
  let s := pciSlot.toNat
  if s < 32 then
    (pathJoin [pciDevPath, "0000:00:" ++ fmtHex02 s ++ ".0"], none)
  else
    (pathJoin [pciDevPath, "0000:00:" ++ fmtHex02 (0x11 + s / 32 - 1) ++ ".0",
      "0000:*:" ++ fmtHex02 (s % 32) ++ ".0"], none)

/-- The table of `TestSlotToPciPath`: the slot, and the elements joined to
`pciDevPath` in the path expected; no row expects an error. -/
def TestSlotToPciPath.tests : List (Int × List String) :=
  [(0, ["0000:00:00.0"]),
   (32, ["0000:00:11.0", "0000:*:00.0"]),
   (33, ["0000:00:11.0", "0000:*:01.0"]),
   (192, ["0000:00:16.0", "0000:*:00.0"])]

/-! ## Wait timeout -/

/-- One minute as a `time.Duration`. -/
def Minute : Int := 60 * Second

/-- The constant `containerWaitTimeout`. -/
def containerWaitTimeout : Int := 3 * Minute

/-- The timeout that `ContainerWaitHandler` derives from the request
(containers_handlers.go, lines 377 to 385).  The default is the whole number
of seconds in `containerWaitTimeout`; the product with `time.Second` is a
64-bit multiplication. -/
def containerWaitHandlerTimeout (Timeout : Int) : Int :=
  let defaultTimeout := containerWaitTimeout / Second
  let defaultTimeout := if Timeout > 0 then Timeout else defaultTimeout
  wrapInt64 (defaultTimeout * Second)

/-! ## Task activation -/

namespace Task

/-- The part of `executor.SessionConfig` that the task package uses. -/
structure SessionConfig where
  ID : String
  Active : Bool
  deriving DecidableEq, Repr

/-- The Go map `map[string]*SessionConfig`: task ids with the pointer stored,
which may be nil.  The first pair of a key is the one in force. -/
abbrev Tasks := List (String × Option SessionConfig)

/-- The two-valued lookup `task, ok := tasks[id]`. -/
def Tasks.lookup (tasks : Tasks) (id : String) : Option (Option SessionConfig) :=
  match tasks with
  | [] => none
  | (k, v) :: rest => if k = id then some v else Tasks.lookup rest id

/-- The assignment `task.Active = active` through the pointer stored under
`id`, seen from the map.  Pointers shared between entries are not modelled. -/
def Tasks.setActive (tasks : Tasks) (id : String) (active : Bool) : Tasks :=
  match tasks with
  | [] => []
  | (k, v) :: rest =>
    if k = id then (k, v.map (fun t => { t with Active := active })) :: rest
    else (k, v) :: Tasks.setActive rest id active

/-- The part of the executor configuration that the task package uses: the
persistent set `Sessions` and the ephemeral set `Execs`. -/
structure ExecutorConfig where
  Sessions : Tasks
  Execs : Tasks
  deriving DecidableEq, Repr

/-- The part of `exec.Handle` that the task package uses; `reloaded` records
that `Reload` has been called. -/
structure Handle where
  ExecConfig : Option ExecutorConfig
  Runtime : Option VirtualMachineRuntimeInfo
  reloaded : Bool
  deriving DecidableEq, Repr

/-- A value of interface type as `toggleActive` receives it: a pointer to a
handle, a nil pointer to a handle, or a value of another type. -/
inductive Value where
  | handle (h : Handle)
  | nilHandle
  | other (text : String)
  deriving DecidableEq, Repr

/-- `toggleActive`: the handle and the error returned. -/
def toggleActive (h : Value) (id : String) (active : Bool) :
    Exit (Option Handle × Option GoError) :=
  match h with
  | .other _ =>
    .ret (none, some (.errorString "Type assertion failed for (*exec.Handle)(nil)"))
  | .nilHandle => .panic
  | .handle handle =>
    match handle.ExecConfig with
    | none => .panic
    | some cfg =>
      let ephemeral : Bool :=
        match handle.Runtime with
        | some rt => decide (rt.PowerState ≠ PowerState.poweredOff)
        | none => false
      let tasks := if ephemeral then cfg.Execs else cfg.Sessions
      match Tasks.lookup tasks id with
      | none => .ret (none, some (.errorString ("unknown persistent task ID: " ++ id)))
      | some none => .panic
      | some (some _) =>
        let tasks1 := Tasks.setActive tasks id active
        let cfg1 : ExecutorConfig :=
          if ephemeral then { cfg with Execs := tasks1 } else { cfg with Sessions := tasks1 }
        .ret (some { handle with ExecConfig := some cfg1, reloaded := true }, none)

/-- A handle of a suspended container whose persistent set holds the task
`t1` and whose ephemeral set is empty. -/
def handleSuspended : Handle where
  ExecConfig := some { Sessions := [("t1", some ⟨"t1", false⟩)], Execs := [] }
  Runtime := some ⟨PowerState.suspended⟩
  reloaded := false

/-- A handle of a suspended container that holds a task `t1` in both sets. -/
def handleSuspendedBoth : Handle where
  ExecConfig := some
    { Sessions := [("t1", some ⟨"t1", false⟩)], Execs := [("t1", some ⟨"t1", false⟩)] }
  Runtime := some ⟨PowerState.suspended⟩
  reloaded := false

end Task

/-! ## Keys of the extra configuration -/

/-- The function `strings.HasPrefix`. -/
def HasPrefix (s pre : String) : Bool :=
  pre.data.isPrefixOf s.data

/-- Whether `sub` occurs in the characters `s`. -/
def containsChars : List Char → List Char → Bool
  | [], sub => sub.isEmpty
  | c :: t, sub => sub.isPrefixOf (c :: t) || containsChars t sub

/-- The function `strings.Contains`. -/
def Contains (s sub : String) : Bool :=
  containsChars s.data sub.data

/-- Replacement of the occurrences of a non-empty `old`, from the left and
without overlap, at most `limit` of them when a limit is given; `skip` counts
the characters of an occurrence still to pass over. -/
def replaceChars (old new : List Char) : Option Nat → Nat → List Char → List Char
  | _, _, [] => []
  | limit, skip + 1, _ :: t => replaceChars old new limit skip t
  | limit, 0, c :: t =>
    if limit ≠ some 0 ∧ old.isPrefixOf (c :: t) then
      new ++ replaceChars old new (limit.map (fun n => n - 1)) (old.length - 1) t
    else c :: replaceChars old new limit 0 t

/-- Replacement of the empty string: `new` goes before each character and at
the end, at most `limit` times when a limit is given. -/
def insertChars (new : List Char) : Option Nat → List Char → List Char
  | some 0, s => s
  | _, [] => new
  | limit, c :: t => new ++ c :: insertChars new (limit.map (fun n => n - 1)) t

/-- The function `strings.Replace`; a negative `n` sets no limit. -/
def Replace (s old new : String) (n : Int) : String :=
  if old = new ∨ n = 0 then s
  else
    let limit : Option Nat := if n < 0 then none else some n.toNat
    if old.data = [] then String.mk (insertChars new.data limit s.data)
    else String.mk (replaceChars old.data new.data limit 0 s.data)

/-- White space as `unicode.IsSpace` has it. -/
def isSpace (c : Char) : Bool :=
  let n := c.toNat
  (9 ≤ n && n ≤ 13) || n = 32 || n = 0x85 || n = 0xA0 || n = 0x1680
    || (0x2000 ≤ n && n ≤ 0x200a) || n = 0x2028 || n = 0x2029 || n = 0x202f
    || n = 0x205f || n = 0x3000

/-- The function `strings.TrimSpace`. -/
def TrimSpace (s : String) : String :=
  String.mk ((s.data.dropWhile isSpace).reverse.dropWhile isSpace).reverse

/-- The function `strings.Join`. -/
def Join (elems : List String) (sep : String) : String :=
  sep.intercalate elems

/-- The slice expression `s[n:]`, which panics when `n` exceeds the length.
Offsets count characters; for ASCII strings these are the bytes. -/
def sliceFrom (s : String) (n : Nat) : Exit String :=
  if s.data.length < n then .panic else .ret (String.mk (s.data.drop n))

/-- The constant `DefaultGuestInfoPrefix`. -/
def DefaultGuestInfoPrefix : String := "guestinfo"

/-- The scope flag `Invalid`. -/
def Invalid : Nat := 1

/-- The scope flag `Hidden`. -/
def Hidden : Nat := 2

/-- The scope flag `ReadOnly`. -/
def ReadOnly : Nat := 4

/-- The scope flag `ReadWrite`. -/
def ReadWrite : Nat := 8

/-- The scope flag `NonPersistent`. -/
def NonPersistent : Nat := 16

/-- The scope flag `Volatile`. -/
def Volatile : Nat := 32

/-- The loop of `calculateScope` with the flags gathered so far. -/
def calculateScopeLoop : List String → Nat → Nat
  | [], scope => scope
  | v :: rest, scope =>
    if v = "hidden" then calculateScopeLoop rest (scope ||| Hidden)
    else if v = "read-only" then calculateScopeLoop rest (scope ||| ReadOnly)
    else if v = "read-write" then calculateScopeLoop rest (scope ||| ReadWrite)
    else if v = "non-persistent" then calculateScopeLoop rest (scope ||| NonPersistent)
    else if v = "volatile" then calculateScopeLoop rest (scope ||| Volatile)
    else Invalid

/-- `calculateScope`: the flags of a list of scope names, `Invalid` as soon as
a name is unknown. -/
def calculateScope (scopes : List String) : Nat :=
  calculateScopeLoop scopes 0

/-- `calculateScopeFromKey`: the scopes read off a key. -/
def calculateScopeFromKey (key : String) : List String :=
  let scopes : List String := []
  let scopes := if !HasPrefix key DefaultGuestInfoPrefix then scopes ++ ["hidden"] else scopes
  if Contains key "/" then scopes ++ ["read-only"] else scopes ++ ["read-write"]

/-- `calculateKey`: the key of a field from its scopes, the prefix and its
own key. -/
def calculateKey (scopes : List String) (pre : String) (key : String) : Exit String :=
  let scope := calculateScope scopes
  if scope &&& Invalid ≠ 0 ∨ scope &&& NonPersistent ≠ 0 then .ret ""
  else
    let key := TrimSpace key
    let g0 : String × String × String := ("", "", "")
    let g1 := if scope &&& Hidden ≠ 0 then ("", "/", ".") else g0
    let g2 := if scope &&& ReadOnly ≠ 0 then (DefaultGuestInfoPrefix, "/", ".") else g1
    let g3 := if scope &&& ReadWrite ≠ 0 then (DefaultGuestInfoPrefix, ".", "/") else g2
    let guestinfo := g3.1
    let seperator := g3.2.1
    let oseperator := g3.2.2
    let base := Replace pre oseperator seperator (-1)
    let stripped : Exit (String × String) :=
      if HasPrefix base DefaultGuestInfoPrefix then
        if guestinfo = "" then
          match sliceFrom base (DefaultGuestInfoPrefix.length + 1) with
          | .panic => .panic
          | .ret b => .ret (b, guestinfo)
        else .ret (base, "")
      else .ret (base, guestinfo)
    match stripped with
    | .panic => .panic
    | .ret (base, guestinfo) =>
      if guestinfo = "" ∧ pre = "" then
        .ret (Replace key (DefaultGuestInfoPrefix ++ "/") (DefaultGuestInfoPrefix ++ ".") 1)
      else if guestinfo = "" then
        let r := Join [base, key] seperator
        .ret (Replace r (DefaultGuestInfoPrefix ++ "/") (DefaultGuestInfoPrefix ++ ".") 1)
      else if pre = "" then
        let r := Join [guestinfo, key] seperator
        .ret (Replace r (DefaultGuestInfoPrefix ++ "/") (DefaultGuestInfoPrefix ++ ".") 1)
      else
        let r := Join [guestinfo, pre, key] seperator
        .ret (Replace r (DefaultGuestInfoPrefix ++ "/") (DefaultGuestInfoPrefix ++ ".") 1)

/-- The scope names that `calculateScope` knows. -/
def knownScope (v : String) : Prop :=
  v = "hidden" ∨ v = "read-only" ∨ v = "read-write" ∨ v = "non-persistent" ∨ v = "volatile"

/-! ## Reference descriptions used in the statements -/

/-- The calls of one round of the shutdown loop: deliver `sig`, then wait. -/
def roundCalls (id : String) (wait : Int) (sig : String) : Log :=
  [Call.ProcessManager, Call.StartProgram id "kill" sig,
    Call.WaitForPowerState wait PowerState.poweredOff]

/-- The calls of one round for each signal of a list, in order. -/
def roundsLog (id : String) (wait : Int) : List String → Log
  | [] => []
  | sig :: rest => roundCalls id wait sig ++ roundsLog id wait rest

/-- The calls `shutdown` may make: process manager, delivery of one of the
signals as `kill <sig>` under the container id, and waits of the given
duration for powered-off. -/
def shutdownCall (id : String) (wait : Int) (sigs : List String) (call : Call) : Prop :=
  call = Call.ProcessManager ∨ (∃ sig, sig ∈ sigs ∧ call = Call.StartProgram id "kill" sig)
    ∨ call = Call.WaitForPowerState wait PowerState.poweredOff

/-! ## Sample data -/

/-- A backend where every delivery succeeds and every wait runs into its
deadline. -/
def vmAlwaysTimeout : VirtualMachine where
  ProcessManager := fun _ => none
  StartProgram := fun _ => none
  WaitForPowerState := fun _ => ⟨some GoError.DeadlineExceeded, some GoError.DeadlineExceeded⟩
  PowerOff := fun _ => none

/-- A container `c1` whose primary session names no stop signal. -/
def baseOf (vm : VirtualMachine) : containerBase where
  ExecConfig := { ID := "c1", Sessions := fun id => if id = "c1" then some ⟨""⟩ else none }
  Config := none
  Runtime := none
  vm := some vm

/-- A backend whose first wait fails with a backend error, not a timeout. -/
def vmWaitFails : VirtualMachine where
  ProcessManager := fun _ => none
  StartProgram := fun _ => none
  WaitForPowerState := fun _ => ⟨some (GoError.backend "connection lost"), none⟩
  PowerOff := fun _ => none

/-- A backend whose first wait times out and whose second wait observes
powered-off. -/
def vmSecondWaitOk : VirtualMachine where
  ProcessManager := fun _ => none
  StartProgram := fun _ => none
  WaitForPowerState := fun n =>
    if n = 0 then ⟨some GoError.DeadlineExceeded, some GoError.DeadlineExceeded⟩
    else ⟨none, none⟩
  PowerOff := fun _ => none

/-- A backend where every wait times out and the hard power-off finds the
machine already powered off. -/
def vmPowerOffRaced : VirtualMachine where
  ProcessManager := fun _ => none
  StartProgram := fun _ => none
  WaitForPowerState := fun _ => ⟨some GoError.DeadlineExceeded, some GoError.DeadlineExceeded⟩
  PowerOff := fun _ =>
    some (GoError.taskError (Fault.InvalidPowerState PowerState.poweredOff) "invalid power state")

/-- A container `c0` for which no backend object exists yet. -/
def baseNoVM : containerBase where
  ExecConfig := { ID := "c0", Sessions := fun _ => none }
  Config := none
  Runtime := none
  vm := none

/-- A backend whose guest publishes a launch failure. -/
def vmLaunchFails : VirtualMachine where
  ProcessManager := fun _ => none
  StartProgram := fun _ => none
  WaitForPowerState := fun _ => ⟨none, none⟩
  PowerOff := fun _ => none
  PowerOn := fun _ => none
  WaitForKeyInExtraConfig := fun _ => ("exec: no such file", none)

/-- A handle `h1` of the container `c1`, no target state chosen yet. -/
def handleH1 : Handle where
  ExecConfig := some { ID := "c1", Sessions := fun _ => none }
  targetState := State.other 0
  key := "h1"

/-- Package exec holding the handle `h1` and the running container `c1`; a
commit meets a concurrent modification and a removal a running container. -/
def execBusy : Exec where
  GetHandle := fun k => if k = "h1" then some handleH1 else none
  GetContainer := fun id => if id = "c1" then some handleH1 else none
  Container := fun id => if id = "c1" then some ⟨"c1", State.StateRunning⟩ else none
  Commit := fun _ _ => some (GoError.ConcurrentAccessError "concurrent modification")
  Remove := fun _ => some (GoError.RemovePowerError "container is running")

/-- Package exec where the id `c1` resolves to the handle `h1` but the
container registry holds no entry for it. -/
def execNoEntry : Exec where
  GetHandle := fun k => if k = "h1" then some handleH1 else none
  GetContainer := fun id => if id = "c1" then some handleH1 else none
  Container := fun _ => none
  Commit := fun _ _ => none
  Remove := fun _ => none

/-- A handle `h0` that has no executor configuration. -/
def handleNoConfig : Handle where
  ExecConfig := none
  targetState := State.other 0
  key := "h0"

/-- Package exec in which the handle name `h0` and the container id `c0`
resolve to the handle without configuration. -/
def execNoConfig : Exec where
  GetHandle := fun k => if k = "h0" then some handleNoConfig else none
  GetContainer := fun id => if id = "c0" then some handleNoConfig else none
  Container := fun _ => none
  Commit := fun _ _ => none
  Remove := fun _ => none

/-- A session `s7` that closes without error. -/
def sessionS7 : SessionInteraction := ⟨7, none⟩

/-- A connection whose first handshake attempt runs into its deadline and
whose second succeeds; it offers the one session id `c1`. -/
def connRetry : NetConn where
  HandshakeClient := fun n => if n = 0 then some GoError.DeadlineExceeded else none
  NewClientConn := none
  SSHls := .ok ["c1"]
  SSHAttach := fun _ => .ok sessionS7

/-- A connection whose peer hangs up during the second handshake attempt. -/
def connHangsUp : NetConn where
  HandshakeClient := fun n => if n = 0 then some GoError.DeadlineExceeded else some GoError.EOF
  NewClientConn := none
  SSHls := .ok []
  SSHAttach := fun _ => .error GoError.EOF

/-- A connector with an empty registry. -/
def connectorEmpty : Connector := ⟨[], false⟩

/-- A backend that refuses to start a program in the guest. -/
def vmNoGuestProgram : VirtualMachine where
  ProcessManager := fun _ => none
  StartProgram := fun _ => some (GoError.backend "guest operations unavailable")
  WaitForPowerState := fun _ => ⟨none, none⟩
  PowerOff := fun _ => none

/-- A connection offering the ids `c1` and `c2`, on which the attach to `c2`
fails. -/
def connSecondAttachFails : NetConn where
  HandshakeClient := fun _ => none
  NewClientConn := none
  SSHls := .ok ["c1", "c2"]
  SSHAttach := fun n => if n = 0 then .ok sessionS7 else .error (GoError.backend "channel refused")

/-! ## Counting calls -/

@[simp] theorem nProcessManager_nil : Log.nProcessManager [] = 0 := rfl

@[simp] theorem nStartProgram_nil : Log.nStartProgram [] = 0 := rfl

@[simp] theorem nWaitForPowerState_nil : Log.nWaitForPowerState [] = 0 := rfl

@[simp] theorem nPowerOff_nil : Log.nPowerOff [] = 0 := rfl

@[simp] theorem nProcessManager_append (a b : Log) :
    Log.nProcessManager (a ++ b) = Log.nProcessManager a + Log.nProcessManager b := by
  simp [Log.nProcessManager]

@[simp] theorem nStartProgram_append (a b : Log) :
    Log.nStartProgram (a ++ b) = Log.nStartProgram a + Log.nStartProgram b := by
  simp [Log.nStartProgram]

@[simp] theorem nWaitForPowerState_append (a b : Log) :
    Log.nWaitForPowerState (a ++ b) = Log.nWaitForPowerState a + Log.nWaitForPowerState b := by
  simp [Log.nWaitForPowerState]

@[simp] theorem nPowerOff_append (a b : Log) :
    Log.nPowerOff (a ++ b) = Log.nPowerOff a + Log.nPowerOff b := by
  simp [Log.nPowerOff]

@[simp] theorem nProcessManager_roundCalls (id : String) (wait : Int) (sig : String) :
    Log.nProcessManager (roundCalls id wait sig) = 1 := rfl

@[simp] theorem nStartProgram_roundCalls (id : String) (wait : Int) (sig : String) :
    Log.nStartProgram (roundCalls id wait sig) = 1 := rfl

@[simp] theorem nWaitForPowerState_roundCalls (id : String) (wait : Int) (sig : String) :
    Log.nWaitForPowerState (roundCalls id wait sig) = 1 := rfl

@[simp] theorem nPowerOff_roundCalls (id : String) (wait : Int) (sig : String) :
    Log.nPowerOff (roundCalls id wait sig) = 0 := rfl

/-! ## One round of the shutdown loop -/

/-- A round whose delivery succeeds and whose wait times out hands over to the
next signal, having made exactly the calls of one round. -/
theorem shutdownLoop_round_timeout (c : containerBase) (vm : VirtualMachine) (wait : Int)
    (stop rest : List String) (sig : String) (log : Log) (t : GoError)
    (hvm : c.vm = some vm)
    (hpm : vm.ProcessManager log.nProcessManager = none)
    (hsp : vm.StartProgram log.nStartProgram = none)
    (hw : vm.WaitForPowerState log.nWaitForPowerState = ⟨some t, some t⟩) :
    shutdownLoop c c.ExecConfig.ID wait stop (sig :: rest) log
      = shutdownLoop c c.ExecConfig.ID wait stop rest
          (log ++ roundCalls c.ExecConfig.ID wait sig) := by
  simp [shutdownLoop, containerBase.startGuestProgram, containerBase.waitForPowerState,
    hvm, hpm, hsp, hw, roundCalls, Log.nProcessManager, Log.nStartProgram,
    Log.nWaitForPowerState] at *

/-- A round whose delivery succeeds and whose wait fails otherwise than by its
own timeout returns that error. -/
theorem shutdownLoop_round_error (c : containerBase) (vm : VirtualMachine) (wait : Int)
    (stop rest : List String) (sig : String) (log : Log) (e : GoError) (ctx : Option GoError)
    (hvm : c.vm = some vm)
    (hpm : vm.ProcessManager log.nProcessManager = none)
    (hsp : vm.StartProgram log.nStartProgram = none)
    (hw : vm.WaitForPowerState log.nWaitForPowerState = ⟨some e, ctx⟩)
    (hne : ctx ≠ some e) :
    shutdownLoop c c.ExecConfig.ID wait stop (sig :: rest) log
      = (.ret (some e), log ++ roundCalls c.ExecConfig.ID wait sig) := by
  simp [shutdownLoop, containerBase.startGuestProgram, containerBase.waitForPowerState,
    hvm, hpm, hsp, hw, roundCalls, Log.nProcessManager, Log.nStartProgram,
    Log.nWaitForPowerState] at *
  simp [hpm, hsp, hw, hne]

/-- A round whose delivery succeeds and whose wait observes the power state
returns nil. -/
theorem shutdownLoop_round_ok (c : containerBase) (vm : VirtualMachine) (wait : Int)
    (stop rest : List String) (sig : String) (log : Log) (ctx : Option GoError)
    (hvm : c.vm = some vm)
    (hpm : vm.ProcessManager log.nProcessManager = none)
    (hsp : vm.StartProgram log.nStartProgram = none)
    (hw : vm.WaitForPowerState log.nWaitForPowerState = ⟨none, ctx⟩) :
    shutdownLoop c c.ExecConfig.ID wait stop (sig :: rest) log
      = (.ret none, log ++ roundCalls c.ExecConfig.ID wait sig) := by
  simp [shutdownLoop, containerBase.startGuestProgram, containerBase.waitForPowerState,
    hvm, hpm, hsp, hw, roundCalls, Log.nProcessManager, Log.nStartProgram,
    Log.nWaitForPowerState] at *

/-! ## The calls a shutdown can make -/

theorem startGuestProgram_log (c : containerBase) (name args : String) (log : Log) :
    (c.startGuestProgram name args log).2 = log
      ∨ (c.startGuestProgram name args log).2 = log ++ [Call.ProcessManager]
      ∨ (c.startGuestProgram name args log).2
          = log ++ [Call.ProcessManager, Call.StartProgram c.ExecConfig.ID name args] := by
  unfold containerBase.startGuestProgram
  cases c.vm with
  | none => simp
  | some vm =>
    cases h : vm.ProcessManager log.nProcessManager <;> simp [h]

theorem waitForPowerState_log (c : containerBase) (max : Int) (state : PowerState) (log : Log) :
    (c.waitForPowerState max state log).2 = log
      ∨ (c.waitForPowerState max state log).2 = log ++ [Call.WaitForPowerState max state] := by
  unfold containerBase.waitForPowerState
  cases c.vm with
  | none => simp
  | some vm =>
    cases h : (vm.WaitForPowerState log.nWaitForPowerState).err <;> simp [h]

theorem shutdownCall_mono (id : String) (wait : Int) (sig : String) (rest : List String)
    (call : Call) (h : shutdownCall id wait rest call) : shutdownCall id wait (sig :: rest) call := by
  rcases h with h | ⟨s, hs, h⟩ | h
  · exact Or.inl h
  · exact Or.inr (Or.inl ⟨s, List.mem_cons_of_mem _ hs, h⟩)
  · exact Or.inr (Or.inr h)

/-- The loop only appends to the log, and only calls of the three kinds. -/
theorem shutdownLoop_calls (c : containerBase) (wait : Int) (stop : List String) :
    ∀ (sigs : List String) (log : Log), ∃ calls : Log,
      (shutdownLoop c c.ExecConfig.ID wait stop sigs log).2 = log ++ calls
        ∧ ∀ call ∈ calls, shutdownCall c.ExecConfig.ID wait sigs call := by
  intro sigs
  induction sigs with
  | nil => intro log; exact ⟨[], by simp [shutdownLoop], by simp⟩
  | cons sig rest ih =>
    intro log
    have hs := startGuestProgram_log c "kill" sig log
    rcases h1 : c.startGuestProgram "kill" sig log with ⟨r1, log1⟩
    rw [h1] at hs
    have hlog1 : ∃ calls1 : Log, log1 = log ++ calls1
        ∧ ∀ call ∈ calls1, shutdownCall c.ExecConfig.ID wait (sig :: rest) call := by
      rcases hs with hs | hs | hs
      · exact ⟨[], by simpa using hs, by simp⟩
      · exact ⟨[Call.ProcessManager], hs, by simp [shutdownCall]⟩
      · exact ⟨[Call.ProcessManager, Call.StartProgram c.ExecConfig.ID "kill" sig], hs,
          by simp [shutdownCall]⟩
    obtain ⟨calls1, hc1, hk1⟩ := hlog1
    cases r1 with
    | some err => exact ⟨calls1, by simp [shutdownLoop, h1, hc1], hk1⟩
    | none =>
      have hw := waitForPowerState_log c wait PowerState.poweredOff log1
      rcases h2 : c.waitForPowerState wait PowerState.poweredOff log1 with ⟨r2, log2⟩
      rw [h2] at hw
      have hlog2 : ∃ calls2 : Log, log2 = log ++ calls2
          ∧ ∀ call ∈ calls2, shutdownCall c.ExecConfig.ID wait (sig :: rest) call := by
        rcases hw with hw | hw
        · exact ⟨calls1, by simpa [hc1] using hw, hk1⟩
        · refine ⟨calls1 ++ [Call.WaitForPowerState wait PowerState.poweredOff],
            by simpa [hc1] using hw, ?_⟩
          intro call hcall
          rcases List.mem_append.mp hcall with hcall | hcall
          · exact hk1 call hcall
          · exact Or.inr (Or.inr (by simpa using hcall))
      obtain ⟨calls2, hc2, hk2⟩ := hlog2
      cases r2 with
      | panic => exact ⟨calls2, by simp [shutdownLoop, h1, h2, hc2], hk2⟩
      | ret fe =>
        obtain ⟨flag, err⟩ := fe
        cases err with
        | none => exact ⟨calls2, by simp [shutdownLoop, h1, h2, hc2], hk2⟩
        | some e =>
          cases flag with
          | false => exact ⟨calls2, by simp [shutdownLoop, h1, h2, hc2], hk2⟩
          | true =>
            obtain ⟨calls3, hc3, hk3⟩ := ih log2
            rw [hc2] at hc3
            refine ⟨calls2 ++ calls3, by simp [shutdownLoop, h1, h2, hc3, hc2], ?_⟩
            intro call hcall
            rcases List.mem_append.mp hcall with hcall | hcall
            · exact hk2 call hcall
            · exact shutdownCall_mono _ _ _ _ _ (hk3 call hcall)

/-! ## Graceful shutdown -/

theorem stopSignals_eq (cs : SessionConfig) :
    stopSignals cs = [if cs.StopSignal = "" then "TERM" else cs.StopSignal, "KILL"] := by
  unfold stopSignals SIGTERM SIGKILL
  split <;> rfl

theorem shutdown_eq_loop (c : containerBase) (vm : VirtualMachine) (cs : SessionConfig)
    (waitTime : Option Int) (log : Log) (hvm : c.vm = some vm)
    (hcs : c.ExecConfig.Sessions c.ExecConfig.ID = some cs) :
    c.shutdown waitTime log
      = shutdownLoop c c.ExecConfig.ID (shutdownWait waitTime) (stopSignals cs)
          (stopSignals cs) log := by
  simp [containerBase.shutdown, hvm, hcs]

/-- C1: with a backend object and a primary session, when both deliveries
succeed and both waits for powered-off time out, `shutdown` makes exactly the
calls of two rounds, in order: deliver the session's stop signal (TERM when
none is configured) and wait, deliver KILL and wait; and it returns a non-nil
error, the one naming the exhausted signal list. -/
theorem shutdown_timeouts_exhaust_signals (c : containerBase) (vm : VirtualMachine)
    (cs : SessionConfig) (waitTime : Option Int) (t0 t1 : GoError)
    (hvm : c.vm = some vm)
    (hcs : c.ExecConfig.Sessions c.ExecConfig.ID = some cs)
    (hpm : ∀ n, n < 2 → vm.ProcessManager n = none)
    (hsp : ∀ n, n < 2 → vm.StartProgram n = none)
    (hw0 : vm.WaitForPowerState 0 = ⟨some t0, some t0⟩)
    (hw1 : vm.WaitForPowerState 1 = ⟨some t1, some t1⟩) :
    c.shutdown waitTime [] =
      (Exit.ret (some (GoError.errorString
          ("failed to shutdown " ++ c.ExecConfig.ID ++ " via kill signals "
            ++ fmtStrings [if cs.StopSignal = "" then "TERM" else cs.StopSignal, "KILL"]))),
        [Call.ProcessManager,
         Call.StartProgram c.ExecConfig.ID "kill"
           (if cs.StopSignal = "" then "TERM" else cs.StopSignal),
         Call.WaitForPowerState (shutdownWait waitTime) PowerState.poweredOff,
         Call.ProcessManager,
         Call.StartProgram c.ExecConfig.ID "kill" "KILL",
         Call.WaitForPowerState (shutdownWait waitTime) PowerState.poweredOff]) := by
  rw [shutdown_eq_loop c vm cs waitTime [] hvm hcs, stopSignals_eq]
  rw [shutdownLoop_round_timeout c vm _ _ _ _ [] t0 hvm (hpm 0 (by decide)) (hsp 0 (by decide)) hw0]
  rw [shutdownLoop_round_timeout c vm _ _ _ _ _ t1 hvm (by simpa using hpm 1 (by decide))
    (by simpa using hsp 1 (by decide)) (by simpa using hw1)]
  simp [shutdownLoop, roundCalls]

/-- C1 at a concrete container: no stop signal configured, no wait time given,
every wait running into its deadline. -/
theorem shutdown_timeouts_exhaust_signals_witness :
    (baseOf vmAlwaysTimeout).shutdown none [] =
      (Exit.ret (some (GoError.errorString
          ("failed to shutdown " ++ "c1" ++ " via kill signals "
            ++ fmtStrings [if ("" : String) = "" then "TERM" else "", "KILL"]))),
        [Call.ProcessManager,
         Call.StartProgram "c1" "kill" (if ("" : String) = "" then "TERM" else ""),
         Call.WaitForPowerState (shutdownWait none) PowerState.poweredOff,
         Call.ProcessManager,
         Call.StartProgram "c1" "kill" "KILL",
         Call.WaitForPowerState (shutdownWait none) PowerState.poweredOff]) :=
  shutdown_timeouts_exhaust_signals (baseOf vmAlwaysTimeout) vmAlwaysTimeout ⟨""⟩ none
    GoError.DeadlineExceeded GoError.DeadlineExceeded rfl rfl (fun _ _ => rfl) (fun _ _ => rfl)
    rfl rfl

/-- C2: at signal position `k` (0 or 1), when the deliveries up to `k`
succeed, the waits before `k` time out and the wait at `k` fails with an error
`e` that is not the timeout context's error, `shutdown` returns `e` itself and
has made exactly the calls of the first `k + 1` rounds, so no later signal is
delivered.  The flag of `waitForPowerState` is true exactly when the wait
returned an error and that error is the timeout context's error; on success
the result is the flag false with a nil error. -/
theorem shutdown_wait_error_aborts (c : containerBase) (vm : VirtualMachine)
    (cs : SessionConfig) (waitTime : Option Int) (k : Nat) (e : GoError)
    (ctx : Option GoError)
    (hvm : c.vm = some vm)
    (hcs : c.ExecConfig.Sessions c.ExecConfig.ID = some cs)
    (hk : k < 2)
    (hpm : ∀ n, n ≤ k → vm.ProcessManager n = none)
    (hsp : ∀ n, n ≤ k → vm.StartProgram n = none)
    (hto : ∀ n, n < k → ∃ t, vm.WaitForPowerState n = ⟨some t, some t⟩)
    (hw : vm.WaitForPowerState k = ⟨some e, ctx⟩)
    (hne : ctx ≠ some e) :
    c.shutdown waitTime [] =
        (Exit.ret (some e),
          roundsLog c.ExecConfig.ID (shutdownWait waitTime) ((stopSignals cs).take (k + 1)))
      ∧ ∀ (max : Int) (state : PowerState) (log : Log),
          (c.waitForPowerState max state log).1 =
            Exit.ret
              (decide ((vm.WaitForPowerState log.nWaitForPowerState).err ≠ none
                  ∧ (vm.WaitForPowerState log.nWaitForPowerState).ctxErr
                      = (vm.WaitForPowerState log.nWaitForPowerState).err),
                (vm.WaitForPowerState log.nWaitForPowerState).err) := by
  constructor
  · rw [shutdown_eq_loop c vm cs waitTime [] hvm hcs, stopSignals_eq]
    have hk01 : k = 0 ∨ k = 1 := by omega
    rcases hk01 with rfl | rfl
    · rw [shutdownLoop_round_error c vm _ _ _ _ [] e ctx hvm (hpm 0 (by decide))
        (hsp 0 (by decide)) hw hne]
      simp [roundsLog]
    · obtain ⟨t, ht⟩ := hto 0 (by decide)
      rw [shutdownLoop_round_timeout c vm _ _ _ _ [] t hvm (hpm 0 (by decide))
        (hsp 0 (by decide)) ht]
      rw [shutdownLoop_round_error c vm _ _ _ _ _ e ctx hvm (by simpa using hpm 1 (by decide))
        (by simpa using hsp 1 (by decide)) (by simpa using hw) hne]
      simp [roundsLog]
  · intro max state log
    unfold containerBase.waitForPowerState
    rw [hvm]
    cases h : (vm.WaitForPowerState log.nWaitForPowerState).err <;> simp [h]

/-- C2 at a concrete container: the first wait fails with a backend error while
the timeout context reports none. -/
theorem shutdown_wait_error_aborts_witness :
    (baseOf vmWaitFails).shutdown none [] =
        (Exit.ret (some (GoError.backend "connection lost")),
          roundsLog "c1" (shutdownWait none) ((stopSignals ⟨""⟩).take (0 + 1)))
      ∧ ∀ (max : Int) (state : PowerState) (log : Log),
          ((baseOf vmWaitFails).waitForPowerState max state log).1 =
            Exit.ret
              (decide ((vmWaitFails.WaitForPowerState log.nWaitForPowerState).err ≠ none
                  ∧ (vmWaitFails.WaitForPowerState log.nWaitForPowerState).ctxErr
                      = (vmWaitFails.WaitForPowerState log.nWaitForPowerState).err),
                (vmWaitFails.WaitForPowerState log.nWaitForPowerState).err) :=
  shutdown_wait_error_aborts (baseOf vmWaitFails) vmWaitFails ⟨""⟩ none 0
    (GoError.backend "connection lost") none rfl rfl (by decide) (fun _ _ => rfl)
    (fun _ _ => rfl) (fun _ h => absurd h (Nat.not_lt_zero _)) rfl (by simp)

/-- C3: at signal position `k` (0 or 1), when the deliveries up to `k`
succeed, the waits before `k` time out and the wait at `k` observes
powered-off, `shutdown` returns nil and has made exactly the calls of the
first `k + 1` rounds: `k + 1` deliveries and none after them.  For `k = 0` the
only delivery is the first signal of the list, and the KILL that ends the list
is not sent. -/
theorem shutdown_succeeds_at_powered_off (c : containerBase) (vm : VirtualMachine)
    (cs : SessionConfig) (waitTime : Option Int) (k : Nat) (ctx : Option GoError)
    (hvm : c.vm = some vm)
    (hcs : c.ExecConfig.Sessions c.ExecConfig.ID = some cs)
    (hk : k < 2)
    (hpm : ∀ n, n ≤ k → vm.ProcessManager n = none)
    (hsp : ∀ n, n ≤ k → vm.StartProgram n = none)
    (hto : ∀ n, n < k → ∃ t, vm.WaitForPowerState n = ⟨some t, some t⟩)
    (hw : vm.WaitForPowerState k = ⟨none, ctx⟩) :
    c.shutdown waitTime [] =
        (Exit.ret none,
          roundsLog c.ExecConfig.ID (shutdownWait waitTime) ((stopSignals cs).take (k + 1)))
      ∧ (c.shutdown waitTime []).2.nStartProgram = k + 1
      ∧ (k = 0 → (c.shutdown waitTime []).2 =
          [Call.ProcessManager,
           Call.StartProgram c.ExecConfig.ID "kill"
             (if cs.StopSignal = "" then "TERM" else cs.StopSignal),
           Call.WaitForPowerState (shutdownWait waitTime) PowerState.poweredOff]) := by
  have main : c.shutdown waitTime [] =
        (Exit.ret none,
          roundsLog c.ExecConfig.ID (shutdownWait waitTime) ((stopSignals cs).take (k + 1))) := by
    rw [shutdown_eq_loop c vm cs waitTime [] hvm hcs, stopSignals_eq]
    have hk01 : k = 0 ∨ k = 1 := by omega
    rcases hk01 with rfl | rfl
    · rw [shutdownLoop_round_ok c vm _ _ _ _ [] ctx hvm (hpm 0 (by decide))
        (hsp 0 (by decide)) hw]
      simp [roundsLog]
    · obtain ⟨t, ht⟩ := hto 0 (by decide)
      rw [shutdownLoop_round_timeout c vm _ _ _ _ [] t hvm (hpm 0 (by decide))
        (hsp 0 (by decide)) ht]
      rw [shutdownLoop_round_ok c vm _ _ _ _ _ ctx hvm (by simpa using hpm 1 (by decide))
        (by simpa using hsp 1 (by decide)) (by simpa using hw)]
      simp [roundsLog]
  refine ⟨main, ?_, ?_⟩
  · rw [main, stopSignals_eq]
    have hk01 : k = 0 ∨ k = 1 := by omega
    rcases hk01 with rfl | rfl <;> simp [roundsLog]
  · intro hk0
    subst hk0
    rw [main, stopSignals_eq]
    simp [roundsLog, roundCalls]

/-- C3 at a concrete container: the first wait times out, the second observes
powered-off. -/
theorem shutdown_succeeds_at_powered_off_witness :
    (baseOf vmSecondWaitOk).shutdown none [] =
        (Exit.ret none,
          roundsLog "c1" (shutdownWait none) ((stopSignals ⟨""⟩).take (1 + 1)))
      ∧ ((baseOf vmSecondWaitOk).shutdown none []).2.nStartProgram = 1 + 1
      ∧ (1 = 0 → ((baseOf vmSecondWaitOk).shutdown none []).2 =
          [Call.ProcessManager,
           Call.StartProgram "c1" "kill" (if ("" : String) = "" then "TERM" else ""),
           Call.WaitForPowerState (shutdownWait none) PowerState.poweredOff]) :=
  shutdown_succeeds_at_powered_off (baseOf vmSecondWaitOk) vmSecondWaitOk ⟨""⟩ none 1 none
    rfl rfl (by decide) (fun _ _ => rfl) (fun _ _ => rfl)
    (fun n h => ⟨GoError.DeadlineExceeded, by
      have h0 : n = 0 := by omega
      subst h0
      rfl⟩) rfl

/-- Whatever the outcome, `shutdown` only appends to the log, and only calls
of the three kinds, every wait being for the one derived duration. -/
theorem shutdown_calls (c : containerBase) (waitTime : Option Int) (log : Log) :
    ∃ calls : Log, (c.shutdown waitTime log).2 = log ++ calls
      ∧ ∀ call ∈ calls, ∃ sigs, shutdownCall c.ExecConfig.ID (shutdownWait waitTime) sigs call := by
  unfold containerBase.shutdown
  cases c.vm with
  | none => exact ⟨[], by simp, by simp⟩
  | some vm =>
    cases hcs : c.ExecConfig.Sessions c.ExecConfig.ID with
    | none => exact ⟨[], by simp [hcs], by simp⟩
    | some cs =>
      obtain ⟨calls, h1, h2⟩ :=
        shutdownLoop_calls c (shutdownWait waitTime) (stopSignals cs) (stopSignals cs) log
      exact ⟨calls, by simpa [hcs] using h1, fun call hcall => ⟨stopSignals cs, h2 call hcall⟩⟩

theorem shutdownCall_ne_powerOff (id : String) (wait : Int) (sigs : List String) (call : Call)
    (h : shutdownCall id wait sigs call) : call ≠ Call.PowerOff := by
  rcases h with h | ⟨s, _, h⟩ | h <;> simp [h]

theorem shutdown_powerOff_not_mem (c : containerBase) (waitTime : Option Int) :
    Call.PowerOff ∉ (c.shutdown waitTime []).2 := by
  obtain ⟨calls, h1, h2⟩ := shutdown_calls c waitTime []
  intro hmem
  rw [h1] at hmem
  obtain ⟨sigs, hs⟩ := h2 Call.PowerOff (by simpa using hmem)
  exact shutdownCall_ne_powerOff _ _ _ _ hs rfl

theorem shutdown_nPowerOff (c : containerBase) (waitTime : Option Int) :
    (c.shutdown waitTime []).2.nPowerOff = 0 := by
  have h := shutdown_powerOff_not_mem c waitTime
  unfold Log.nPowerOff
  rw [List.countP_eq_zero]
  intro call hcall
  cases call <;> simp_all

/-! ## Stop -/

/-- The outcome of `stop` once the graceful shutdown has failed: the hard
power-off is issued as the first power-off of the run and its reply is
filtered. -/
theorem stop_of_shutdown_failed (key : String) (c : containerBase) (vm : VirtualMachine)
    (waitTime : Option Int) (e : GoError) (log1 : Log)
    (hvm : c.vm = some vm)
    (hfail : c.shutdown waitTime [] = (Exit.ret (some e), log1)) :
    c.stop key waitTime [] =
      (match vm.PowerOff 0 with
        | none => Exit.ret none
        | some (GoError.taskError (Fault.InvalidPowerState st) text) =>
          if st = PowerState.poweredOff then Exit.ret none
          else Exit.ret (some (GoError.taskError (Fault.InvalidPowerState st) text))
        | some (GoError.taskError (Fault.GenericVmConfigFault (m :: ms)) text) =>
          if m.Key = key then Exit.ret none
          else Exit.ret (some (GoError.taskError (Fault.GenericVmConfigFault (m :: ms)) text))
        | some err => Exit.ret (some err),
       log1 ++ [Call.PowerOff]) := by
  have hn : log1.nPowerOff = 0 := by
    have h := shutdown_nPowerOff c waitTime
    rw [hfail] at h
    exact h
  unfold containerBase.stop
  simp only [hvm, hfail, hn]
  cases hp : vm.PowerOff 0 with
  | none => rfl
  | some err =>
    cases err with
    | taskError fault text =>
      cases fault with
      | InvalidPowerState st => by_cases hst : st = PowerState.poweredOff <;> simp [hst]
      | GenericVmConfigFault msgs =>
        cases msgs with
        | nil => rfl
        | cons m ms => by_cases hm : m.Key = key <;> simp [hm]
      | other name => rfl
    | _ => rfl

theorem stop_log_of_shutdown_failed (key : String) (c : containerBase) (vm : VirtualMachine)
    (waitTime : Option Int) (e : GoError) (log1 : Log)
    (hvm : c.vm = some vm)
    (hfail : c.shutdown waitTime [] = (Exit.ret (some e), log1)) :
    (c.stop key waitTime []).2 = log1 ++ [Call.PowerOff] := by
  rw [stop_of_shutdown_failed key c vm waitTime e log1 hvm hfail]

theorem shutdown_vmPowerOffRaced :
    (baseOf vmPowerOffRaced).shutdown none [] =
      (Exit.ret (some (GoError.errorString
          "failed to shutdown c1 via kill signals [TERM KILL]")),
        [Call.ProcessManager, Call.StartProgram "c1" "kill" "TERM",
         Call.WaitForPowerState 10000000000 PowerState.poweredOff,
         Call.ProcessManager, Call.StartProgram "c1" "kill" "KILL",
         Call.WaitForPowerState 10000000000 PowerState.poweredOff]) := by
  decide

/-- C4: with a backend object, once the graceful shutdown has failed, `stop`
issues the hard power-off and returns nil if and only if the power-off
succeeds, or fails with an InvalidPowerState fault whose existing state is
poweredOff, or fails with a GenericVmConfigFault whose first fault message has
the key of a power-off cancelled by a guest shutdown; in every other case it
returns the power-off error itself.  This covers the run in which both signals
time out. -/
theorem stop_nil_iff_powerOff_benign (key : String) (c : containerBase) (vm : VirtualMachine)
    (waitTime : Option Int) (e : GoError) (log1 : Log)
    (hvm : c.vm = some vm)
    (hfail : c.shutdown waitTime [] = (Exit.ret (some e), log1)) :
    ((c.stop key waitTime []).1 = Exit.ret none ↔
        (vm.PowerOff 0 = none
          ∨ (∃ text, vm.PowerOff 0
              = some (GoError.taskError (Fault.InvalidPowerState PowerState.poweredOff) text))
          ∨ (∃ m ms text, vm.PowerOff 0
              = some (GoError.taskError (Fault.GenericVmConfigFault (m :: ms)) text)
                ∧ m.Key = key)))
      ∧ ((c.stop key waitTime []).1 = Exit.ret none
          ∨ (c.stop key waitTime []).1 = Exit.ret (vm.PowerOff 0))
      ∧ (c.stop key waitTime []).2 = log1 ++ [Call.PowerOff] := by
  rw [stop_of_shutdown_failed key c vm waitTime e log1 hvm hfail]
  cases hp : vm.PowerOff 0 with
  | none => simp
  | some err =>
    cases err with
    | taskError fault text =>
      cases fault with
      | InvalidPowerState st => by_cases hst : st = PowerState.poweredOff <;> simp [hst]
      | GenericVmConfigFault msgs =>
        cases msgs with
        | nil => simp
        | cons m ms => by_cases hm : m.Key = key <;> simp [hm]
      | other name => simp
    | _ => simp

/-- C4 at a concrete container: both signals time out and the hard power-off
reports that the machine is already powered off. -/
theorem stop_nil_iff_powerOff_benign_witness :
    (((baseOf vmPowerOffRaced).stop "msg.suspend.powerOff.notsuspended" none []).1
          = Exit.ret none ↔
        (vmPowerOffRaced.PowerOff 0 = none
          ∨ (∃ text, vmPowerOffRaced.PowerOff 0
              = some (GoError.taskError (Fault.InvalidPowerState PowerState.poweredOff) text))
          ∨ (∃ m ms text, vmPowerOffRaced.PowerOff 0
              = some (GoError.taskError (Fault.GenericVmConfigFault (m :: ms)) text)
                ∧ m.Key = "msg.suspend.powerOff.notsuspended")))
      ∧ (((baseOf vmPowerOffRaced).stop "msg.suspend.powerOff.notsuspended" none []).1
            = Exit.ret none
          ∨ ((baseOf vmPowerOffRaced).stop "msg.suspend.powerOff.notsuspended" none []).1
            = Exit.ret (vmPowerOffRaced.PowerOff 0))
      ∧ ((baseOf vmPowerOffRaced).stop "msg.suspend.powerOff.notsuspended" none []).2 =
          [Call.ProcessManager, Call.StartProgram "c1" "kill" "TERM",
           Call.WaitForPowerState 10000000000 PowerState.poweredOff,
           Call.ProcessManager, Call.StartProgram "c1" "kill" "KILL",
           Call.WaitForPowerState 10000000000 PowerState.poweredOff] ++ [Call.PowerOff] :=
  stop_nil_iff_powerOff_benign "msg.suspend.powerOff.notsuspended" (baseOf vmPowerOffRaced)
    vmPowerOffRaced none _ _ rfl shutdown_vmPowerOffRaced

/-- C5: with a backend object, `stop` issues the hard power-off if and only if
the graceful shutdown returned an error; when the graceful shutdown returns
nil, `stop` returns nil with the calls of the shutdown alone, the power-off
primitive not among them. -/
theorem stop_powerOff_iff_shutdown_error (key : String) (c : containerBase)
    (vm : VirtualMachine) (waitTime : Option Int) (hvm : c.vm = some vm) :
    (Call.PowerOff ∈ (c.stop key waitTime []).2 ↔
        ∃ e, (c.shutdown waitTime []).1 = Exit.ret (some e))
      ∧ ((c.shutdown waitTime []).1 = Exit.ret none →
          c.stop key waitTime [] = (Exit.ret none, (c.shutdown waitTime []).2)
            ∧ Call.PowerOff ∉ (c.stop key waitTime []).2) := by
  have hnot := shutdown_powerOff_not_mem c waitTime
  rcases hsd : c.shutdown waitTime [] with ⟨r, log1⟩
  rw [hsd] at hnot
  cases r with
  | panic =>
    have hstop : c.stop key waitTime [] = (Exit.panic, log1) := by
      simp [containerBase.stop, hvm, hsd]
    simp [hstop]
    exact hnot
  | ret err =>
    cases err with
    | none =>
      have hstop : c.stop key waitTime [] = (Exit.ret none, log1) := by
        simp [containerBase.stop, hvm, hsd]
      simp [hstop]
      exact hnot
    | some e =>
      have hlog := (stop_log_of_shutdown_failed key c vm waitTime e log1 hvm hsd)
      simp [hlog]

/-- C5 at a concrete container whose second wait observes powered-off. -/
theorem stop_powerOff_iff_shutdown_error_witness :
    (Call.PowerOff ∈ ((baseOf vmSecondWaitOk).stop "msg.suspend.powerOff.notsuspended" none []).2 ↔
        ∃ e, ((baseOf vmSecondWaitOk).shutdown none []).1 = Exit.ret (some e))
      ∧ (((baseOf vmSecondWaitOk).shutdown none []).1 = Exit.ret none →
          (baseOf vmSecondWaitOk).stop "msg.suspend.powerOff.notsuspended" none []
              = (Exit.ret none, ((baseOf vmSecondWaitOk).shutdown none []).2)
            ∧ Call.PowerOff ∉
                ((baseOf vmSecondWaitOk).stop "msg.suspend.powerOff.notsuspended" none []).2) :=
  stop_powerOff_iff_shutdown_error "msg.suspend.powerOff.notsuspended" (baseOf vmSecondWaitOk)
    vmSecondWaitOk none rfl

/-! ## Signal list and wait duration -/

/-- C6: for a primary session `cs`, the signal list that `shutdown` walks has
exactly two elements: the first is the configured stop signal, or TERM when
the configured stop signal is the empty string, and the last is KILL; and this
is the list `shutdown` hands to its loop. -/
theorem stopSignals_two_ending_in_kill (cs : SessionConfig) :
    (stopSignals cs).length = 2
      ∧ (stopSignals cs).head? = some (if cs.StopSignal = "" then "TERM" else cs.StopSignal)
      ∧ (stopSignals cs).getLast? = some "KILL"
      ∧ stopSignals cs = [if cs.StopSignal = "" then "TERM" else cs.StopSignal, "KILL"]
      ∧ ∀ (c : containerBase) (vm : VirtualMachine) (waitTime : Option Int) (log : Log),
          c.vm = some vm → c.ExecConfig.Sessions c.ExecConfig.ID = some cs →
          c.shutdown waitTime log
            = shutdownLoop c c.ExecConfig.ID (shutdownWait waitTime) (stopSignals cs)
                (stopSignals cs) log := by
  refine ⟨?_, ?_, ?_, stopSignals_eq cs, ?_⟩
  · rw [stopSignals_eq]; rfl
  · rw [stopSignals_eq]; rfl
  · rw [stopSignals_eq]; rfl
  · intro c vm waitTime log hvm hcs
    exact shutdown_eq_loop c vm cs waitTime log hvm hcs

theorem wrapInt64_seconds (w : Int) (h0 : 0 < w) (h1 : w < 2 ^ 31) :
    wrapInt64 (w * Second) = w * Second := by
  unfold wrapInt64 Second
  norm_num at h1 ⊢
  omega

/-- C7: for a 32-bit `waitTime`, the per-signal wait of `shutdown` is ten
seconds when `waitTime` is nil, zero or negative, and otherwise exactly
`waitTime` seconds, a positive duration below 2^63 nanoseconds, so the 64-bit
product does not overflow; and every wait that `shutdown` makes, for whichever
signal, is for that one duration and for the powered-off state. -/
theorem shutdownWait_ten_seconds_or_waitTime (w : Int)
    (hlo : -2 ^ 31 ≤ w) (hhi : w < 2 ^ 31) :
    shutdownWait none = 10 * Second
      ∧ (w ≤ 0 → shutdownWait (some w) = 10 * Second)
      ∧ (0 < w → shutdownWait (some w) = w * Second
          ∧ 0 < w * Second ∧ w * Second < 2 ^ 63)
      ∧ ∀ (c : containerBase) (waitTime : Option Int) (max : Int) (state : PowerState),
          Call.WaitForPowerState max state ∈ (c.shutdown waitTime []).2 →
            max = shutdownWait waitTime ∧ state = PowerState.poweredOff := by
  refine ⟨rfl, ?_, ?_, ?_⟩
  · intro h
    have : ¬ w > 0 := by omega
    simp [shutdownWait, this]
  · intro h
    refine ⟨?_, ?_, ?_⟩
    · simp [shutdownWait, h, wrapInt64_seconds w h hhi]
    · unfold Second; omega
    · unfold Second; norm_num at hhi ⊢; omega
  · intro c waitTime max state hmem
    obtain ⟨calls, h1, h2⟩ := shutdown_calls c waitTime []
    rw [h1] at hmem
    obtain ⟨sigs, hs⟩ := h2 _ (by simpa using hmem)
    rcases hs with hs | ⟨s, _, hs⟩ | hs
    · cases hs
    · cases hs
    · cases hs
      exact ⟨rfl, rfl⟩

/-- C7 at the largest 32-bit wait time. -/
theorem shutdownWait_ten_seconds_or_waitTime_witness :
    shutdownWait none = 10 * Second
      ∧ ((2147483647 : Int) ≤ 0 → shutdownWait (some 2147483647) = 10 * Second)
      ∧ ((0 : Int) < 2147483647 → shutdownWait (some 2147483647) = 2147483647 * Second
          ∧ 0 < 2147483647 * Second ∧ 2147483647 * Second < 2 ^ 63)
      ∧ ∀ (c : containerBase) (waitTime : Option Int) (max : Int) (state : PowerState),
          Call.WaitForPowerState max state ∈ (c.shutdown waitTime []).2 →
            max = shutdownWait waitTime ∧ state = PowerState.poweredOff :=
  shutdownWait_ten_seconds_or_waitTime 2147483647 (by norm_num) (by norm_num)

/-! ## Connector registry -/

theorem ConnMap.lookup_delete_self (m : ConnMap) (id : String) :
    ConnMap.lookup (ConnMap.delete m id) id = none := by
  induction m with
  | nil => rfl
  | cons e rest ih =>
    obtain ⟨k, v⟩ := e
    by_cases hk : k = id
    · simpa [ConnMap.delete, List.filter, hk] using ih
    · have hf : ConnMap.delete ((k, v) :: rest) id = (k, v) :: ConnMap.delete rest id := by
        simp [ConnMap.delete, List.filter, hk]
      rw [hf]
      simp [ConnMap.lookup, hk, ih]

theorem ConnMap.index_delete_self (m : ConnMap) (id : String) :
    ConnMap.index (ConnMap.delete m id) id = none := by
  simp [ConnMap.index, ConnMap.lookup_delete_self]

theorem Connector.Get_zero (c : Connector) (id : String) :
    c.Get id 0 =
      (match ConnMap.index c.connections id with
        | some conn => GetResult.session conn.spty
        | none => GetResult.error (GoError.errorString "no such connection"), c) := by
  unfold Connector.Get
  cases ConnMap.index c.connections id <;> simp

/-- C8: `Get(id, 0)` is a lookup that never waits: when the registry holds a
connection for `id` (indexing the map yields a non-nil entry) it returns that
connection's session with a nil error, otherwise it returns the error
"no such connection"; the registry is the same afterwards in both cases. -/
theorem Get_zero_is_lookup (c : Connector) (id : String) :
    (∀ conn, ConnMap.index c.connections id = some conn →
        c.Get id 0 = (GetResult.session conn.spty, c))
      ∧ (ConnMap.index c.connections id = none →
        c.Get id 0 = (GetResult.error (GoError.errorString "no such connection"), c))
      ∧ (c.Get id 0).2 = c
      ∧ (c.Get id 0).1 ≠ GetResult.blocks := by
  rw [Connector.Get_zero]
  cases h : ConnMap.index c.connections id <;> simp

/-- C9: after `Remove(id)`, whatever closing the session returned, indexing the
registry at `id` yields nil and a following `Get(id, 0)` returns the error
"no such connection".  The key itself is gone from the map, unless the map
held a nil pointer under it, which `Remove` leaves in place. -/
theorem Remove_then_Get_not_found (c : Connector) (id : String) :
    ConnMap.index (c.Remove id).2.1.connections id = none
      ∧ (c.Remove id).2.1.Get id 0
          = (GetResult.error (GoError.errorString "no such connection"), (c.Remove id).2.1)
      ∧ (ConnMap.lookup (c.Remove id).2.1.connections id = none
          ∨ ConnMap.lookup c.connections id = some none) := by
  have hidx : ConnMap.index (c.Remove id).2.1.connections id = none := by
    unfold Connector.Remove
    cases h : ConnMap.index c.connections id with
    | none => simpa using h
    | some conn =>
      by_cases hid : conn.id = id <;> simp [hid, ConnMap.index_delete_self]
  refine ⟨hidx, ?_, ?_⟩
  · rw [Connector.Get_zero, hidx]
  · unfold Connector.Remove
    cases h : ConnMap.index c.connections id with
    | some conn =>
      left
      by_cases hid : conn.id = id <;> simp [hid, ConnMap.lookup_delete_self]
    | none =>
      unfold ConnMap.index at h
      cases hl : ConnMap.lookup c.connections id with
      | none => left; simp [hl]
      | some v =>
        right
        rw [hl] at h
        simp at h
        rw [h]

/-- C10: when the registry holds no connection for `id`, `Remove(id)` returns
nil, closes no session and leaves the registry as it was; and a second
`Remove(id)` right after a first always returns nil, closes nothing and yields
the registry the first one produced. -/
theorem Remove_absent_is_noop (c : Connector) (id : String) :
    (ConnMap.index c.connections id = none → c.Remove id = (none, c, []))
      ∧ (c.Remove id).2.1.Remove id = (none, (c.Remove id).2.1, []) := by
  have habsent : ∀ d : Connector, ConnMap.index d.connections id = none →
      d.Remove id = (none, d, []) := by
    intro d hd
    simp [Connector.Remove, hd]
  refine ⟨habsent c, habsent _ ?_⟩
  unfold Connector.Remove
  cases h : ConnMap.index c.connections id with
  | none => simpa using h
  | some conn =>
    by_cases hid : conn.id = id <;> simp [hid, ConnMap.index_delete_self]

/-! ## Missing backend object, start, refresh -/

/-- C15: when the base has no backend object, each of `start`, `stop`,
`shutdown`, `startGuestProgram` and `updates` returns the NotYetExistError
carrying the container's ID, whose message is "<ID> is not completely
created", and makes no backend call (the log is as before); `refresh` returns
the same error and leaves the base as it was. -/
theorem no_vm_gives_NotYetExistError (key : String)
    (Decode : List (String × String) → ExecutorConfig) (c : containerBase)
    (waitTime : Option Int) (name args : String) (log : Log)
    (hvm : c.vm = none) :
    c.start log = (some (GoError.NotYetExistError c.ExecConfig.ID), log)
      ∧ c.stop key waitTime log = (Exit.ret (some (GoError.NotYetExistError c.ExecConfig.ID)), log)
      ∧ c.shutdown waitTime log
          = (Exit.ret (some (GoError.NotYetExistError c.ExecConfig.ID)), log)
      ∧ c.startGuestProgram name args log
          = (some (GoError.NotYetExistError c.ExecConfig.ID), log)
      ∧ c.updates Decode log
          = (Exit.ret (none, some (GoError.NotYetExistError c.ExecConfig.ID)), c, log)
      ∧ c.refresh Decode log
          = (Exit.ret (some (GoError.NotYetExistError c.ExecConfig.ID)), c, log)
      ∧ (GoError.NotYetExistError c.ExecConfig.ID).Error
          = c.ExecConfig.ID ++ " is not completely created" := by
  have hu : c.updates Decode log
      = (Exit.ret (none, some (GoError.NotYetExistError c.ExecConfig.ID)), c, log) := by
    simp [containerBase.updates, hvm]
  refine ⟨?_, ?_, ?_, ?_, hu, ?_, rfl⟩
  · simp [containerBase.start, hvm]
  · simp [containerBase.stop, hvm]
  · simp [containerBase.shutdown, hvm]
  · simp [containerBase.startGuestProgram, hvm]
  · simp [containerBase.refresh, hu]

/-- C15 at the container `c0`, which has no backend object. -/
theorem no_vm_gives_NotYetExistError_witness :
    baseNoVM.start [] = (some (GoError.NotYetExistError "c0"), [])
      ∧ baseNoVM.stop "msg.suspend.powerOff.notsuspended" none []
          = (Exit.ret (some (GoError.NotYetExistError "c0")), [])
      ∧ baseNoVM.shutdown none [] = (Exit.ret (some (GoError.NotYetExistError "c0")), [])
      ∧ baseNoVM.startGuestProgram "kill" "TERM" []
          = (some (GoError.NotYetExistError "c0"), [])
      ∧ baseNoVM.updates (fun _ => baseNoVM.ExecConfig) []
          = (Exit.ret (none, some (GoError.NotYetExistError "c0")), baseNoVM, [])
      ∧ baseNoVM.refresh (fun _ => baseNoVM.ExecConfig) []
          = (Exit.ret (some (GoError.NotYetExistError "c0")), baseNoVM, [])
      ∧ (GoError.NotYetExistError "c0").Error = "c0" ++ " is not completely created" :=
  no_vm_gives_NotYetExistError "msg.suspend.powerOff.notsuspended"
    (fun _ => baseNoVM.ExecConfig) baseNoVM none "kill" "TERM" [] rfl

/-- C16: with a backend object, `start` returns nil if and only if the
power-on succeeds, the wait for the key
"guestinfo.vice..sessions|<id>.started" returns no error and the value
published is exactly "true".  When the power-on fails its error is returned
and the power-on is the only call made.  When the value published is another
string, the error returned has exactly that string as its message. -/
theorem start_nil_iff_launched (c : containerBase) (vm : VirtualMachine)
    (hvm : c.vm = some vm) :
    ((c.start []).1 = none ↔
        vm.PowerOn 0 = none ∧ (vm.WaitForKeyInExtraConfig 0).2 = none
          ∧ (vm.WaitForKeyInExtraConfig 0).1 = "true")
      ∧ (∀ e, vm.PowerOn 0 = some e → c.start [] = (some e, [Call.PowerOn]))
      ∧ (vm.PowerOn 0 = none → (c.start []).2 =
          [Call.PowerOn,
           Call.WaitForKeyInExtraConfig
             ("guestinfo.vice..sessions|" ++ c.ExecConfig.ID ++ ".started")])
      ∧ (∀ detail, vm.PowerOn 0 = none → vm.WaitForKeyInExtraConfig 0 = (detail, none) →
          detail ≠ "true" →
          (c.start []).1 = some (GoError.errorString detail)
            ∧ (GoError.errorString detail).Error = detail) := by
  refine ⟨?_, ?_, ?_, ?_⟩
  · cases hp : vm.PowerOn 0 with
    | some e => simp [containerBase.start, hvm, hp, Log.nPowerOn]
    | none =>
      rcases hw : vm.WaitForKeyInExtraConfig 0 with ⟨detail, werr⟩
      cases werr with
      | some e => simp [containerBase.start, hvm, hp, hw, Log.nWaitForKeyInExtraConfig, Log.nPowerOn]
      | none =>
        by_cases hd : detail = "true" <;>
          simp [containerBase.start, hvm, hp, hw, hd, Log.nWaitForKeyInExtraConfig, Log.nPowerOn]
  · intro e hp
    simp [containerBase.start, hvm, hp, Log.nPowerOn]
  · intro hp
    rcases hw : vm.WaitForKeyInExtraConfig 0 with ⟨detail, werr⟩
    cases werr with
    | some e => simp [containerBase.start, hvm, hp, hw, Log.nWaitForKeyInExtraConfig, Log.nPowerOn]
    | none =>
      by_cases hd : detail = "true" <;>
        simp [containerBase.start, hvm, hp, hw, hd, Log.nWaitForKeyInExtraConfig, Log.nPowerOn]
  · intro detail hp hw hd
    simp [containerBase.start, hvm, hp, hw, hd, Log.nWaitForKeyInExtraConfig, Log.nPowerOn, GoError.Error]

/-- C16 at a concrete container whose guest publishes a launch failure. -/
theorem start_nil_iff_launched_witness :
    (((baseOf vmLaunchFails).start []).1 = none ↔
        vmLaunchFails.PowerOn 0 = none ∧ (vmLaunchFails.WaitForKeyInExtraConfig 0).2 = none
          ∧ (vmLaunchFails.WaitForKeyInExtraConfig 0).1 = "true")
      ∧ (∀ e, vmLaunchFails.PowerOn 0 = some e →
          (baseOf vmLaunchFails).start [] = (some e, [Call.PowerOn]))
      ∧ (vmLaunchFails.PowerOn 0 = none → ((baseOf vmLaunchFails).start []).2 =
          [Call.PowerOn,
           Call.WaitForKeyInExtraConfig
             ("guestinfo.vice..sessions|" ++ "c1" ++ ".started")])
      ∧ (∀ detail, vmLaunchFails.PowerOn 0 = none →
          vmLaunchFails.WaitForKeyInExtraConfig 0 = (detail, none) →
          detail ≠ "true" →
          ((baseOf vmLaunchFails).start []).1 = some (GoError.errorString detail)
            ∧ (GoError.errorString detail).Error = detail) :=
  start_nil_iff_launched (baseOf vmLaunchFails) vmLaunchFails rfl

theorem updates_receiver (Decode : List (String × String) → ExecutorConfig)
    (c : containerBase) (log : Log) : (c.updates Decode log).2.1 = c := by
  unfold containerBase.updates
  cases c.vm with
  | none => rfl
  | some vm =>
    cases h1 : (vm.Properties log.nProperties).err with
    | some e => simp [h1]
    | none =>
      cases h2 : (vm.Properties log.nProperties).Config <;> simp [h1, h2]

/-- C17: `updates` leaves the base it is called on as it was.  `refresh` is
all-or-nothing: when the fetch from the backend fails, the error is returned
and the base is as before in every field; whenever `refresh` does not return
nil the base is as before; when the fetch succeeds with a configuration,
`refresh` returns nil and the base afterwards has the fetched `Config` and
`Runtime`, the `ExecConfig` decoded from the fetched extra configuration, and
the backend reference it had before. -/
theorem updates_frame_refresh_all_or_nothing
    (Decode : List (String × String) → ExecutorConfig) (c : containerBase) (log : Log) :
    (c.updates Decode log).2.1 = c
      ∧ (∀ vm e, c.vm = some vm → (vm.Properties log.nProperties).err = some e →
          c.refresh Decode log = (Exit.ret (some e), c, log ++ [Call.Properties]))
      ∧ ((c.refresh Decode log).1 ≠ Exit.ret none → (c.refresh Decode log).2.1 = c)
      ∧ (∀ vm config, c.vm = some vm → (vm.Properties log.nProperties).err = none →
          (vm.Properties log.nProperties).Config = some config →
          (c.refresh Decode log).1 = Exit.ret none
            ∧ (c.refresh Decode log).2.1.Config = some config
            ∧ (c.refresh Decode log).2.1.Runtime = some (vm.Properties log.nProperties).Runtime
            ∧ (c.refresh Decode log).2.1.ExecConfig = Decode config.ExtraConfig
            ∧ (c.refresh Decode log).2.1.vm = c.vm
            ∧ (c.refresh Decode log).2.2 = log ++ [Call.Properties]) := by
  refine ⟨updates_receiver Decode c log, ?_, ?_, ?_⟩
  · intro vm e hvm he
    simp [containerBase.refresh, containerBase.updates, hvm, he]
  · intro hne
    unfold containerBase.refresh containerBase.updates at *
    cases hvm : c.vm with
    | none => simp [hvm]
    | some vm =>
      cases h1 : (vm.Properties log.nProperties).err with
      | some e => simp [hvm, h1]
      | none =>
        cases h2 : (vm.Properties log.nProperties).Config with
        | none => simp [hvm, h1, h2]
        | some config => simp [hvm, h1, h2] at hne
  · intro vm config hvm he hc
    simp [containerBase.refresh, containerBase.updates, hvm, he, hc]

/-! ## API handlers -/

/-- C18: once the handle is found, `CommitHandler` answers OK exactly when
`Commit` returns nil, conflict exactly when it fails with a
ConcurrentAccessError, and the default response with status 503 and the
error's message for every other failure.  Once handle and container are
found, `RemoveContainerHandler` answers OK exactly when `Remove` returns nil,
conflict exactly when it fails with a RemovePowerError, not-found exactly when
it fails with a NotFoundError, and internal server error exactly for every
other failure. -/
theorem handlers_map_domain_errors (x : Exec) (handle : String) (WaitTime : Option Int)
    (h : Handle) (ID : String) (hc : Handle) (cfg : ExecutorConfig) (container : Container)
    (hh : x.GetHandle handle = some h)
    (hg : x.GetContainer ID = some hc)
    (hcfg : hc.ExecConfig = some cfg)
    (hcont : x.Container cfg.ID = some container) :
    ((CommitHandler x handle WaitTime).1 = Responder.CommitOK ↔ x.Commit h WaitTime = none)
      ∧ ((∃ m, (CommitHandler x handle WaitTime).1 = Responder.CommitConflict m) ↔
          ∃ t, x.Commit h WaitTime = some (GoError.ConcurrentAccessError t))
      ∧ (∀ t, x.Commit h WaitTime = some (GoError.ConcurrentAccessError t) →
          (CommitHandler x handle WaitTime).1 = Responder.CommitConflict t)
      ∧ (∀ e, x.Commit h WaitTime = some e → (∀ t, e ≠ GoError.ConcurrentAccessError t) →
          (CommitHandler x handle WaitTime).1
            = Responder.CommitDefault StatusServiceUnavailable e.Error)
      ∧ ((RemoveContainerHandler x ID).1 = Responder.ContainerRemoveOK ↔
          x.Remove container = none)
      ∧ ((∃ m, (RemoveContainerHandler x ID).1 = Responder.ContainerRemoveConflict m) ↔
          ∃ t, x.Remove container = some (GoError.RemovePowerError t))
      ∧ ((RemoveContainerHandler x ID).1 = Responder.ContainerRemoveNotFound ↔
          ∃ t, x.Remove container = some (GoError.NotFoundError t))
      ∧ ((RemoveContainerHandler x ID).1 = Responder.ContainerRemoveInternalServerError ↔
          ∃ e, x.Remove container = some e ∧ (∀ t, e ≠ GoError.RemovePowerError t)
            ∧ ∀ t, e ≠ GoError.NotFoundError t) := by
  have hcommit : (CommitHandler x handle WaitTime).1 =
      (match x.Commit h WaitTime with
        | none => Responder.CommitOK
        | some (GoError.ConcurrentAccessError t) => Responder.CommitConflict t
        | some e => Responder.CommitDefault StatusServiceUnavailable e.Error) := by
    unfold CommitHandler
    simp only [hh]
    cases hc1 : x.Commit h WaitTime with
    | none => rfl
    | some e => cases e <;> rfl
  have hremove : (RemoveContainerHandler x ID).1 =
      (match x.Remove container with
        | none => Responder.ContainerRemoveOK
        | some (GoError.NotFoundError _) => Responder.ContainerRemoveNotFound
        | some (GoError.RemovePowerError t) => Responder.ContainerRemoveConflict t
        | some _ => Responder.ContainerRemoveInternalServerError) := by
    unfold RemoveContainerHandler
    simp only [hg, hcfg, hcont]
    cases hr : x.Remove container with
    | none => rfl
    | some e => cases e <;> rfl
  rw [hcommit, hremove]
  refine ⟨?_, ?_, ?_, ?_, ?_, ?_, ?_, ?_⟩
  · cases hc1 : x.Commit h WaitTime with
    | none => simp
    | some e => cases e <;> simp
  · cases hc1 : x.Commit h WaitTime with
    | none => simp
    | some e => cases e <;> simp
  · intro t ht
    simp [ht]
  · intro e he hne
    rw [he]
    cases e <;> simp_all
  · cases hr : x.Remove container with
    | none => simp
    | some e => cases e <;> simp
  · cases hr : x.Remove container with
    | none => simp
    | some e => cases e <;> simp
  · cases hr : x.Remove container with
    | none => simp
    | some e => cases e <;> simp
  · cases hr : x.Remove container with
    | none => simp
    | some e => cases e <;> simp

/-- C18 at a concrete request: the commit meets a concurrent modification and
the removal a running container. -/
theorem handlers_map_domain_errors_witness :
    ((CommitHandler execBusy "h1" none).1 = Responder.CommitOK ↔
        execBusy.Commit handleH1 none = none)
      ∧ ((∃ m, (CommitHandler execBusy "h1" none).1 = Responder.CommitConflict m) ↔
          ∃ t, execBusy.Commit handleH1 none = some (GoError.ConcurrentAccessError t))
      ∧ (∀ t, execBusy.Commit handleH1 none = some (GoError.ConcurrentAccessError t) →
          (CommitHandler execBusy "h1" none).1 = Responder.CommitConflict t)
      ∧ (∀ e, execBusy.Commit handleH1 none = some e →
          (∀ t, e ≠ GoError.ConcurrentAccessError t) →
          (CommitHandler execBusy "h1" none).1
            = Responder.CommitDefault StatusServiceUnavailable e.Error)
      ∧ ((RemoveContainerHandler execBusy "c1").1 = Responder.ContainerRemoveOK ↔
          execBusy.Remove ⟨"c1", State.StateRunning⟩ = none)
      ∧ ((∃ m, (RemoveContainerHandler execBusy "c1").1 = Responder.ContainerRemoveConflict m) ↔
          ∃ t, execBusy.Remove ⟨"c1", State.StateRunning⟩ = some (GoError.RemovePowerError t))
      ∧ ((RemoveContainerHandler execBusy "c1").1 = Responder.ContainerRemoveNotFound ↔
          ∃ t, execBusy.Remove ⟨"c1", State.StateRunning⟩ = some (GoError.NotFoundError t))
      ∧ ((RemoveContainerHandler execBusy "c1").1
            = Responder.ContainerRemoveInternalServerError ↔
          ∃ e, execBusy.Remove ⟨"c1", State.StateRunning⟩ = some e
            ∧ (∀ t, e ≠ GoError.RemovePowerError t) ∧ ∀ t, e ≠ GoError.NotFoundError t) :=
  handlers_map_domain_errors execBusy "h1" none handleH1 "c1" handleH1
    { ID := "c1", Sessions := fun _ => none } ⟨"c1", State.StateRunning⟩ rfl rfl rfl rfl

/-- C19: a remove request whose id resolves to a handle with a configuration
but to no registry entry is answered with the not-found response of the
get-state operation, not with the one of the remove operation; `Remove` is
not invoked. -/
theorem RemoveContainerHandler_no_entry_answers_GetStateNotFound :
    RemoveContainerHandler execNoEntry "c1"
        = (Responder.GetStateNotFound, [ExecCall.GetContainer "c1", ExecCall.Container "c1"])
      ∧ (RemoveContainerHandler execNoEntry "c1").1 ≠ Responder.ContainerRemoveNotFound := by
  decide

/-- For the other two ways of not finding the container (no handle, a handle
without configuration) the handler answers with the remove operation's
not-found response, and `Remove` is never invoked in any of the three. -/
theorem RemoveContainerHandler_not_found_cases (x : Exec) (ID : String) :
    (x.GetContainer ID = none →
        RemoveContainerHandler x ID
          = (Responder.ContainerRemoveNotFound, [ExecCall.GetContainer ID]))
      ∧ (∀ h, x.GetContainer ID = some h → h.ExecConfig = none →
        RemoveContainerHandler x ID
          = (Responder.ContainerRemoveNotFound, [ExecCall.GetContainer ID]))
      ∧ (∀ h cfg, x.GetContainer ID = some h → h.ExecConfig = some cfg →
        x.Container cfg.ID = none →
        RemoveContainerHandler x ID
          = (Responder.GetStateNotFound,
              [ExecCall.GetContainer ID, ExecCall.Container cfg.ID])) := by
  refine ⟨?_, ?_, ?_⟩
  · intro h0
    simp [RemoveContainerHandler, h0]
  · intro h h0 h1
    simp [RemoveContainerHandler, h0, h1]
  · intro h cfg h0 h1 h2
    simp [RemoveContainerHandler, h0, h1, h2]

theorem stateFromName_eq_some (name : String) (st : State) :
    stateFromName name = some st ↔
      (name = "RUNNING" ∧ st = State.StateRunning)
        ∨ (name = "STOPPED" ∧ st = State.StateStopped)
        ∨ (name = "CREATED" ∧ st = State.StateCreated) := by
  unfold stateFromName
  by_cases h1 : name = "RUNNING"
  · subst h1
    simp [eq_comm]
  · by_cases h2 : name = "STOPPED"
    · subst h2
      simp [eq_comm]
    · by_cases h3 : name = "CREATED"
      · subst h3
        simp [eq_comm]
      · simp [h1, h2, h3]

/-- C20: a handle that `GetHandle` finds but that has no executor
configuration makes `StateChangeHandler` panic, whatever state is asked for:
the handler reads `h.ExecConfig.ID` for its trace message before it looks at
the requested state.  No target state is set and no response is given, for
"RUNNING" as for an unknown name.  The sibling handlers test the
configuration against nil and answer not-found for the same handle. -/
theorem StateChangeHandler_panics_without_configuration :
    execNoConfig.GetHandle "h0" = some handleNoConfig
      ∧ handleNoConfig.ExecConfig = none
      ∧ (StateChangeHandler execNoConfig "h0" "RUNNING").1 = Exit.panic
      ∧ (StateChangeHandler execNoConfig "h0" "RUNNING").2.2 = [ExecCall.GetHandle "h0"]
      ∧ (StateChangeHandler execNoConfig "h0" "RUNNING").2.1 = some handleNoConfig
      ∧ (StateChangeHandler execNoConfig "h0" "STOPPED").1 = Exit.panic
      ∧ (StateChangeHandler execNoConfig "h0" "CREATED").1 = Exit.panic
      ∧ (StateChangeHandler execNoConfig "h0" "PAUSED").1 = Exit.panic
      ∧ GetStateHandler execNoConfig "h0"
          = (Responder.GetStateNotFound, [ExecCall.GetHandle "h0"])
      ∧ RemoveContainerHandler execNoConfig "c0"
          = (Responder.ContainerRemoveNotFound, [ExecCall.GetContainer "c0"]) :=
  ⟨rfl, rfl, rfl, rfl, rfl, rfl, rfl, rfl, rfl, rfl⟩

/-- What holds of `StateChangeHandler` for a handle that is found and has its
configuration: it calls `SetTargetState` with Running, Stopped or Created
exactly when the requested string is "RUNNING", "STOPPED" or "CREATED", the
handle then having that target state; for every other string it answers with
the error "unknown state", makes no such call and leaves the handle as it
was.  `GetStateHandler` reports these same three names for the three states,
so that a name mapped to its state and back is the name again, and a state
mapped to its name and back is the state again. -/
theorem StateChangeHandler_maps_names (x : Exec) (handle state : String) (h : Handle)
    (cfg : ExecutorConfig)
    (hh : x.GetHandle handle = some h)
    (hcfg : h.ExecConfig = some cfg) :
    (∀ st, stateFromName state = some st →
        StateChangeHandler x handle state
          = (Exit.ret (Responder.StateChangeOK h.key), some { h with targetState := st },
              [ExecCall.GetHandle handle, ExecCall.SetTargetState h.key st]))
      ∧ (∀ st, ExecCall.SetTargetState h.key st ∈ (StateChangeHandler x handle state).2.2 ↔
          (state = "RUNNING" ∧ st = State.StateRunning)
            ∨ (state = "STOPPED" ∧ st = State.StateStopped)
            ∨ (state = "CREATED" ∧ st = State.StateCreated))
      ∧ (state ≠ "RUNNING" → state ≠ "STOPPED" → state ≠ "CREATED" →
          StateChangeHandler x handle state
            = (Exit.ret (Responder.StateChangeDefault StatusServiceUnavailable "unknown state"),
                some h, [ExecCall.GetHandle handle]))
      ∧ (∀ container, x.Container cfg.ID = some container →
          (GetStateHandler x handle).1 =
            (match container.CurrentState with
              | State.StateRunning => Responder.GetStateOK h.key "RUNNING"
              | State.StateStopped => Responder.GetStateOK h.key "STOPPED"
              | State.StateCreated => Responder.GetStateOK h.key "CREATED"
              | State.other _ => Responder.GetStateDefault StatusServiceUnavailable))
      ∧ (∀ name st, stateFromName name = some st → nameFromState st = some name)
      ∧ (∀ st name, nameFromState st = some name → stateFromName name = some st) := by
  refine ⟨?_, ?_, ?_, ?_, ?_, ?_⟩
  · intro st hst
    simp [StateChangeHandler, hh, hcfg, hst, Handle.SetTargetState]
  · intro st
    rw [← stateFromName_eq_some]
    unfold StateChangeHandler
    simp only [hh, hcfg]
    cases hs : stateFromName state with
    | none => simp
    | some st1 => simp [eq_comm]
  · intro h1 h2 h3
    have hs : stateFromName state = none := by simp [stateFromName, h1, h2, h3]
    simp [StateChangeHandler, hh, hcfg, hs]
  · intro container hcont
    unfold GetStateHandler
    simp only [hh, hcfg, hcont]
    cases container.CurrentState <;> rfl
  · intro name st hst
    rcases (stateFromName_eq_some name st).mp hst with ⟨h1, h2⟩ | ⟨h1, h2⟩ | ⟨h1, h2⟩ <;>
      subst h1 <;> subst h2 <;> rfl
  · intro st name hn
    cases st <;> simp [nameFromState] at hn <;> subst hn <;> rfl

/-- The handle `h1`, which has its configuration, asked to be "STOPPED". -/
theorem StateChangeHandler_maps_names_witness :
    StateChangeHandler execBusy "h1" "STOPPED"
      = (Exit.ret (Responder.StateChangeOK "h1"),
          some { handleH1 with targetState := State.StateStopped },
          [ExecCall.GetHandle "h1", ExecCall.SetTargetState "h1" State.StateStopped]) :=
  (StateChangeHandler_maps_names execBusy "h1" "STOPPED" handleH1
    { ID := "c1", Sessions := fun _ => none } rfl rfl).1 State.StateStopped (by decide)

/-! ## Registry updates -/

theorem ConnMap.lookup_delete_ne (m : ConnMap) (k id : String) (h : k ≠ id) :
    ConnMap.lookup (ConnMap.delete m k) id = ConnMap.lookup m id := by
  induction m with
  | nil => rfl
  | cons e rest ih =>
    obtain ⟨k1, v⟩ := e
    by_cases hk : k1 = k
    · have hne : k1 ≠ id := by rw [hk]; exact h
      have hf : ConnMap.delete ((k1, v) :: rest) k = ConnMap.delete rest k := by
        simp [ConnMap.delete, List.filter, hk]
      rw [hf, ih]
      simp [ConnMap.lookup, hne]
    · have hf : ConnMap.delete ((k1, v) :: rest) k = (k1, v) :: ConnMap.delete rest k := by
        simp [ConnMap.delete, List.filter, hk]
      rw [hf]
      simp [ConnMap.lookup, ih]

theorem ConnMap.lookup_set (m : ConnMap) (k : String) (v : Option Connection) (id : String) :
    ConnMap.lookup (ConnMap.set m k v) id = if k = id then some v else ConnMap.lookup m id := by
  by_cases h : k = id
  · simp [ConnMap.set, ConnMap.lookup, h]
  · simp [ConnMap.set, ConnMap.lookup, h, ConnMap.lookup_delete_ne m k id h]

theorem ConnMap.keyCount_delete (m : ConnMap) (k id : String) :
    ConnMap.keyCount (ConnMap.delete m k) id = if k = id then 0 else ConnMap.keyCount m id := by
  induction m with
  | nil => simp [ConnMap.delete, ConnMap.keyCount]
  | cons e rest ih =>
    obtain ⟨k1, v⟩ := e
    by_cases hk : k1 = k
    · have hf : ConnMap.delete ((k1, v) :: rest) k = ConnMap.delete rest k := by
        simp [ConnMap.delete, List.filter, hk]
      rw [hf, ih]
      by_cases h : k = id
      · simp [h]
      · have hne : k1 ≠ id := by rw [hk]; exact h
        simp [h, ConnMap.keyCount, List.countP_cons, hne]
    · have hf : ConnMap.delete ((k1, v) :: rest) k = (k1, v) :: ConnMap.delete rest k := by
        simp [ConnMap.delete, List.filter, hk]
      rw [hf]
      have hc : ∀ l : ConnMap, ConnMap.keyCount ((k1, v) :: l) id
          = ConnMap.keyCount l id + if k1 = id then 1 else 0 := by
        intro l
        simp [ConnMap.keyCount, List.countP_cons]
      rw [hc, hc, ih]
      by_cases h : k = id
      · have hne : k1 ≠ id := by rw [← h]; exact hk
        simp [h, hne]
      · simp [h]

theorem ConnMap.keyCount_set (m : ConnMap) (k : String) (v : Option Connection) (id : String) :
    ConnMap.keyCount (ConnMap.set m k v) id = if k = id then 1 else ConnMap.keyCount m id := by
  have hc : ConnMap.keyCount (ConnMap.set m k v) id
      = ConnMap.keyCount (ConnMap.delete m k) id + if k = id then 1 else 0 := by
    simp [ConnMap.set, ConnMap.keyCount, List.countP_cons]
  rw [hc, ConnMap.keyCount_delete]
  by_cases h : k = id <;> simp [h]

/-- When every attach succeeds, the attach loop ends with a nil error, has made
an attach and a broadcast per id, and leaves a registry in which every id
listed has one entry, holding the session of its last occurrence, while the
other ids are as before. -/
theorem attachLoop_all_ok (nc : NetConn) (sess : Nat → SessionInteraction) :
    ∀ (ids : List String) (n : Nat) (c : Connector) (log : List ConnCall),
      (∀ j, j < ids.length → nc.SSHAttach (n + j) = .ok (sess (n + j))) →
      (attachLoop nc ids n c log).1 = none
        ∧ (attachLoop nc ids n c log).2.2 = log ++ attachCalls ids
        ∧ (∀ id, id ∉ ids →
            ConnMap.lookup (attachLoop nc ids n c log).2.1.connections id
                = ConnMap.lookup c.connections id
              ∧ ConnMap.keyCount (attachLoop nc ids n c log).2.1.connections id
                = ConnMap.keyCount c.connections id)
        ∧ (∀ id, id ∈ ids →
            ConnMap.keyCount (attachLoop nc ids n c log).2.1.connections id = 1)
        ∧ (∀ j id, ids[j]? = some id → (∀ j', j < j' → ids[j']? ≠ some id) →
            ConnMap.lookup (attachLoop nc ids n c log).2.1.connections id
              = some (some ⟨sess (n + j), id⟩)) := by
  intro ids
  induction ids with
  | nil =>
    intro n c log _
    simp [attachLoop, attachCalls]
  | cons a rest ih =>
    intro n c log hatt
    have h0 : nc.SSHAttach n = .ok (sess n) := by simpa using hatt 0 (by simp)
    have hrest : ∀ j, j < rest.length →
        nc.SSHAttach (n + 1 + j) = .ok (sess (n + 1 + j)) := by
      intro j hj
      have := hatt (j + 1) (by simpa using hj)
      have e : n + (j + 1) = n + 1 + j := by omega
      rwa [e] at this
    have hstep : attachLoop nc (a :: rest) n c log
        = attachLoop nc rest (n + 1)
            { c with connections := ConnMap.set c.connections a (some ⟨sess n, a⟩) }
            (log ++ [ConnCall.SSHAttach a] ++ [ConnCall.Broadcast]) := by
      simp [attachLoop, h0]
    rw [hstep]
    obtain ⟨i1, i2, i3, i4, i5⟩ :=
      ih (n + 1) { c with connections := ConnMap.set c.connections a (some ⟨sess n, a⟩) }
        (log ++ [ConnCall.SSHAttach a] ++ [ConnCall.Broadcast]) hrest
    refine ⟨i1, ?_, ?_, ?_, ?_⟩
    · rw [i2]
      simp [attachCalls]
    · intro id hid
      have hne : a ≠ id := fun h => hid (by simp [h])
      have hnr : id ∉ rest := fun h => hid (List.mem_cons_of_mem _ h)
      obtain ⟨l1, l2⟩ := i3 id hnr
      rw [l1, l2]
      simp [ConnMap.lookup_set, ConnMap.keyCount_set, hne]
    · intro id hid
      by_cases hr : id ∈ rest
      · exact i4 id hr
      · have hia : id = a := by
          rcases List.mem_cons.mp hid with h | h
          · exact h
          · exact absurd h hr
        rw [(i3 id hr).2]
        simp [ConnMap.keyCount_set, hia]
    · intro j id hj hlast
      cases j with
      | zero =>
        have hia : a = id := by simpa using hj
        have hr : id ∉ rest := by
          intro hmem
          obtain ⟨m, hm⟩ := List.mem_iff_getElem?.mp hmem
          exact hlast (m + 1) (Nat.succ_pos m) (by simpa using hm)
        rw [(i3 id hr).1]
        simp [ConnMap.lookup_set, hia]
      | succ j0 =>
        have hj0 : rest[j0]? = some id := by simpa using hj
        have hlast0 : ∀ j', j0 < j' → rest[j']? ≠ some id := by
          intro j' hlt
          have := hlast (j' + 1) (by omega)
          simpa using this
        have := i5 j0 id hj0 hlast0
        have e : n + (j0 + 1) = n + 1 + j0 := by omega
        rw [e]
        exact this

/-! ## The handshake loop -/

/-- Attempts that fail otherwise than by end-of-stream are retried: `k` of
them use up `k` rounds of the loop and add a purge and a handshake each. -/
theorem handshakeLoop_retry (c : Connector) (nc : NetConn) :
    ∀ (k fuel n : Nat) (log : List ConnCall),
      (∀ j, j < k → ∃ e, nc.HandshakeClient (n + j) = some e ∧ e ≠ GoError.EOF) →
      handshakeLoop c (some nc) (fuel + k) n log
        = handshakeLoop c (some nc) fuel (n + k) (log ++ retryCalls c.debug k) := by
  intro k
  induction k with
  | zero => intro fuel n log _; simp [retryCalls]
  | succ k ih =>
    intro fuel n log hfail
    obtain ⟨e, he, hne⟩ := hfail 0 (Nat.succ_pos k)
    have he0 : nc.HandshakeClient n = some e := by simpa using he
    have hstep : handshakeLoop c (some nc) (fuel + (k + 1)) n log
        = handshakeLoop c (some nc) (fuel + k) (n + 1)
            (log ++ [ConnCall.PurgeIncoming, ConnCall.HandshakeClient c.debug]) := by
      have e1 : fuel + (k + 1) = (fuel + k) + 1 := by omega
      rw [e1]
      simp [handshakeLoop, he0, hne]
    have hrest : ∀ j, j < k → ∃ e, nc.HandshakeClient (n + 1 + j) = some e ∧ e ≠ GoError.EOF := by
      intro j hj
      have := hfail (j + 1) (by omega)
      have e2 : n + (j + 1) = n + 1 + j := by omega
      rwa [e2] at this
    rw [hstep, ih fuel (n + 1) _ hrest]
    have e3 : n + 1 + k = n + (k + 1) := by omega
    rw [e3]
    simp [retryCalls]

theorem handshakeLoop_afterAttempts (c : Connector) (nc : NetConn) (k : Nat) :
    ∀ (fuel n : Nat) (log : List ConnCall),
      handshakeLoop c (some nc) fuel (n + k) log
        = handshakeLoop c (some (nc.afterAttempts k)) fuel n log := by
  intro fuel
  induction fuel with
  | zero => intro n log; rfl
  | succ fuel ih =>
    intro n log
    have e1 : n + k + 1 = n + 1 + k := by omega
    simp only [handshakeLoop, NetConn.afterAttempts]
    cases h : nc.HandshakeClient (n + k) with
    | none => rfl
    | some e =>
      by_cases he : e = GoError.EOF
      · simp [he]
      · simp only [he, if_false]
        rw [e1]
        exact ih (n + 1) _

theorem handshakeLoop_prepend (c : Connector) (conn : Option NetConn) (pre : List ConnCall) :
    ∀ (fuel n : Nat) (log : List ConnCall),
      handshakeLoop c conn fuel n (pre ++ log)
        = (handshakeLoop c conn fuel n log).map (fun r => (r.1, pre ++ r.2)) := by
  intro fuel
  induction fuel with
  | zero => intro n log; rfl
  | succ fuel ih =>
    intro n log
    cases conn with
    | none => simp [handshakeLoop]
    | some nc =>
      simp only [handshakeLoop]
      cases h : nc.HandshakeClient n with
      | none => simp
      | some e =>
        by_cases he : e = GoError.EOF
        · simp [he]
        · simp only [he, if_false]
          rw [List.append_assoc]
          exact ih (n + 1) _

theorem deferredClose_prepend (nc : NetConn) (err : Option GoError) (pre log : List ConnCall) :
    deferredClose (some nc) err (pre ++ log) = pre ++ deferredClose (some nc) err log := by
  cases err <;> simp [deferredClose]

theorem attachLoop_prepend (nc : NetConn) (pre : List ConnCall) :
    ∀ (ids : List String) (n : Nat) (c : Connector) (log : List ConnCall),
      attachLoop nc ids n c (pre ++ log)
        = ((attachLoop nc ids n c log).1, (attachLoop nc ids n c log).2.1,
            pre ++ (attachLoop nc ids n c log).2.2) := by
  intro ids
  induction ids with
  | nil => intro n c log; rfl
  | cons a rest ih =>
    intro n c log
    simp only [attachLoop]
    cases h : nc.SSHAttach n with
    | error e => simp
    | ok si =>
      simp only [List.append_assoc]
      exact ih (n + 1) _ _

theorem attachLoop_afterAttempts (nc : NetConn) (k : Nat) :
    ∀ (ids : List String) (n : Nat) (c : Connector) (log : List ConnCall),
      attachLoop (nc.afterAttempts k) ids n c log = attachLoop nc ids n c log := by
  intro ids
  induction ids with
  | nil => intro n c log; rfl
  | cons a rest ih =>
    intro n c log
    simp only [attachLoop, NetConn.afterAttempts]
    cases h : nc.SSHAttach n with
    | error e => rfl
    | ok si => exact ih (n + 1) _ _

theorem sessionSetup_prepend (c : Connector) (nc : NetConn) (pre log : List ConnCall) :
    sessionSetup c nc (pre ++ log)
      = ((sessionSetup c nc log).1, pre ++ (sessionSetup c nc log).2) := by
  unfold sessionSetup
  cases h1 : nc.NewClientConn with
  | some e => simp [deferredClose]
  | none =>
    cases h2 : nc.SSHls with
    | error e => simp [deferredClose]
    | ok ids =>
      simp only [List.append_assoc]
      rw [attachLoop_prepend]
      simp [deferredClose_prepend]

theorem sessionSetup_afterAttempts (c : Connector) (nc : NetConn) (k : Nat)
    (log : List ConnCall) :
    sessionSetup c (nc.afterAttempts k) log = sessionSetup c nc log := by
  have hd : ∀ (err : Option GoError) (l : List ConnCall),
      deferredClose (some (nc.afterAttempts k)) err l = deferredClose (some nc) err l := by
    intro err l
    cases err <;> rfl
  unfold sessionSetup
  simp only [attachLoop_afterAttempts, hd]
  rfl

theorem handshakeLoop_aligned (c : Connector) (nc : NetConn) (k fuel : Nat)
    (hfail : ∀ j, j < k → ∃ e, nc.HandshakeClient j = some e ∧ e ≠ GoError.EOF)
    (hok : nc.HandshakeClient k = none) (hfuel : k < fuel) :
    handshakeLoop c (some nc) fuel 0 []
      = some (LoopExit.aligned,
          retryCalls c.debug k ++ [ConnCall.PurgeIncoming, ConnCall.HandshakeClient c.debug]) := by
  obtain ⟨f, rfl⟩ : ∃ f, fuel = (f + 1) + k := ⟨fuel - k - 1, by omega⟩
  rw [handshakeLoop_retry c nc k (f + 1) 0 [] (by simpa using hfail)]
  simp [handshakeLoop, hok]

theorem handshakeLoop_eof (c : Connector) (nc : NetConn) (k fuel : Nat)
    (hfail : ∀ j, j < k → ∃ e, nc.HandshakeClient j = some e ∧ e ≠ GoError.EOF)
    (heof : nc.HandshakeClient k = some GoError.EOF) (hfuel : k < fuel) :
    handshakeLoop c (some nc) fuel 0 []
      = some (LoopExit.eof,
          retryCalls c.debug k
            ++ [ConnCall.PurgeIncoming, ConnCall.HandshakeClient c.debug, ConnCall.Close]) := by
  obtain ⟨f, rfl⟩ : ∃ f, fuel = (f + 1) + k := ⟨fuel - k - 1, by omega⟩
  rw [handshakeLoop_retry c nc k (f + 1) 0 [] (by simpa using hfail)]
  simp [handshakeLoop, heof]

theorem retryCalls_mem (debug : Bool) (k : Nat) (call : ConnCall)
    (h : call ∈ retryCalls debug k) :
    call = ConnCall.PurgeIncoming ∨ call = ConnCall.HandshakeClient debug := by
  induction k with
  | zero => simp [retryCalls] at h
  | succ k ih =>
    simp only [retryCalls, List.mem_append, List.mem_cons, List.mem_singleton,
      List.not_mem_nil, or_false] at h
    rcases h with (h | h) | h
    · exact Or.inl h
    · exact Or.inr h
    · exact ih h

/-- A run of `processIncoming` whose first `k` handshake attempts fail
otherwise than by end-of-stream is the run on the connection as seen from
attempt `k` on, with `k` purges and handshakes made before it. -/
theorem processIncoming_after_failures (c : Connector) (nc : NetConn) (k fuel : Nat)
    (hfail : ∀ j, j < k → ∃ e, nc.HandshakeClient j = some e ∧ e ≠ GoError.EOF) :
    c.processIncoming (some nc) (fuel + k)
      = (c.processIncoming (some (nc.afterAttempts k)) fuel).map
          (fun r => (r.1, retryCalls c.debug k ++ r.2)) := by
  have h1 : handshakeLoop c (some nc) (fuel + k) 0 []
      = (handshakeLoop c (some (nc.afterAttempts k)) fuel 0 []).map
          (fun r => (r.1, retryCalls c.debug k ++ r.2)) := by
    rw [handshakeLoop_retry c nc k fuel 0 [] (by simpa using hfail)]
    rw [handshakeLoop_afterAttempts c nc k fuel 0]
    have := handshakeLoop_prepend c (some (nc.afterAttempts k)) (retryCalls c.debug k) fuel 0 []
    simpa using this
  unfold Connector.processIncoming
  rw [h1]
  cases h2 : handshakeLoop c (some (nc.afterAttempts k)) fuel 0 [] with
  | none => rfl
  | some r =>
    obtain ⟨exit, log⟩ := r
    cases exit with
    | aligned =>
      simp [sessionSetup_prepend, sessionSetup_afterAttempts]
    | eof => simp [deferredClose]
    | noConn => simp [deferredClose]

/-! ## Incoming connections -/

/-- C11: when the handshake comes to succeed, the ssh client is set up, the
session ids `ids` are listed and every attach succeeds, `processIncoming`
returns and the registry afterwards holds exactly one entry for every id of
the list, namely the connection with the session opened for that id at its
last occurrence in the list (whatever the registry held for it before), while
every id not in the list has the entry and the number of entries it had
before.  The connection is not closed. -/
theorem processIncoming_registers_sessions (c : Connector) (nc : NetConn) (k fuel : Nat)
    (ids : List String) (sess : Nat → SessionInteraction)
    (hfail : ∀ j, j < k → ∃ e, nc.HandshakeClient j = some e ∧ e ≠ GoError.EOF)
    (hok : nc.HandshakeClient k = none)
    (hfuel : k < fuel)
    (hcc : nc.NewClientConn = none)
    (hls : nc.SSHls = .ok ids)
    (hatt : ∀ j, j < ids.length → nc.SSHAttach j = .ok (sess j)) :
    ∃ c1 : Connector,
      c.processIncoming (some nc) fuel
          = some (c1,
              retryCalls c.debug k
                ++ [ConnCall.PurgeIncoming, ConnCall.HandshakeClient c.debug,
                    ConnCall.NewClientConn, ConnCall.SSHls]
                ++ attachCalls ids)
        ∧ (∀ id, id ∈ ids → ConnMap.keyCount c1.connections id = 1)
        ∧ (∀ j id, ids[j]? = some id → (∀ j', j < j' → ids[j']? ≠ some id) →
            ConnMap.lookup c1.connections id = some (some ⟨sess j, id⟩)
              ∧ ConnMap.index c1.connections id = some ⟨sess j, id⟩)
        ∧ (∀ id, id ∉ ids →
            ConnMap.lookup c1.connections id = ConnMap.lookup c.connections id
              ∧ ConnMap.keyCount c1.connections id = ConnMap.keyCount c.connections id) := by
  have hloop := handshakeLoop_aligned c nc k fuel hfail hok hfuel
  obtain ⟨a1, a2, a3, a4, a5⟩ :=
    attachLoop_all_ok nc sess ids 0 c
      (retryCalls c.debug k
        ++ [ConnCall.PurgeIncoming, ConnCall.HandshakeClient c.debug]
        ++ [ConnCall.NewClientConn] ++ [ConnCall.SSHls])
      (by simpa using hatt)
  refine ⟨(attachLoop nc ids 0 c
      (retryCalls c.debug k
        ++ [ConnCall.PurgeIncoming, ConnCall.HandshakeClient c.debug]
        ++ [ConnCall.NewClientConn] ++ [ConnCall.SSHls])).2.1, ?_, a4, ?_, a3⟩
  · unfold Connector.processIncoming
    rw [hloop]
    simp only [sessionSetup, hcc, hls, a1, a2, deferredClose]
    simp
  · intro j id hj hlast
    have h := a5 j id hj hlast
    simp only [Nat.zero_add] at h
    refine ⟨h, ?_⟩
    unfold ConnMap.index
    rw [h]

/-- C11 at a concrete connection: one retried handshake attempt, the one
session id `c1`, an empty registry. -/
theorem processIncoming_registers_sessions_witness :
    ∃ c1 : Connector,
      connectorEmpty.processIncoming (some connRetry) 2
          = some (c1,
              retryCalls connectorEmpty.debug 1
                ++ [ConnCall.PurgeIncoming, ConnCall.HandshakeClient connectorEmpty.debug,
                    ConnCall.NewClientConn, ConnCall.SSHls]
                ++ attachCalls ["c1"])
        ∧ (∀ id, id ∈ ["c1"] → ConnMap.keyCount c1.connections id = 1)
        ∧ (∀ (j : Nat) (id : String), (["c1"] : List String)[j]? = some id →
            (∀ j' : Nat, j < j' → (["c1"] : List String)[j']? ≠ some id) →
            ConnMap.lookup c1.connections id = some (some ⟨sessionS7, id⟩)
              ∧ ConnMap.index c1.connections id = some ⟨sessionS7, id⟩)
        ∧ (∀ id, id ∉ ["c1"] →
            ConnMap.lookup c1.connections id = ConnMap.lookup connectorEmpty.connections id
              ∧ ConnMap.keyCount c1.connections id
                  = ConnMap.keyCount connectorEmpty.connections id) :=
  processIncoming_registers_sessions connectorEmpty connRetry 1 2 ["c1"] (fun _ => sessionS7)
    (fun j hj => ⟨GoError.DeadlineExceeded, by
      have h0 : j = 0 := by omega
      subst h0
      exact ⟨rfl, by decide⟩⟩)
    rfl (by decide) rfl rfl (fun _ _ => rfl)

/-- Against C12 as stated: on a connection whose first handshake attempt runs
into its deadline (an error other than end-of-stream), `processIncoming`
makes a second handshake attempt, does not close the connection, and goes on
to insert the session of `c1` into the registry. -/
theorem processIncoming_handshake_error_not_aborted :
    connRetry.HandshakeClient 0 = some GoError.DeadlineExceeded
      ∧ GoError.DeadlineExceeded ≠ GoError.EOF
      ∧ connectorEmpty.processIncoming (some connRetry) 2
          = some (⟨[("c1", some ⟨sessionS7, "c1"⟩)], false⟩,
              [ConnCall.PurgeIncoming, ConnCall.HandshakeClient false,
               ConnCall.PurgeIncoming, ConnCall.HandshakeClient false,
               ConnCall.NewClientConn, ConnCall.SSHls,
               ConnCall.SSHAttach "c1", ConnCall.Broadcast]) := by
  decide

/-- C12, amended: handshake attempts that fail with an error other than
end-of-stream do not abort the connection.  When the first `k` attempts fail
so, `processIncoming` has not returned after `k` rounds of its loop or fewer,
and the run that follows is the run on the connection as seen from attempt
`k` on, preceded by `k` purges and handshakes: nothing is closed and nothing
is inserted on account of the failed attempts. -/
theorem processIncoming_handshake_error_retried (c : Connector) (nc : NetConn) (k : Nat)
    (hfail : ∀ j, j < k → ∃ e, nc.HandshakeClient j = some e ∧ e ≠ GoError.EOF) :
    (∀ fuel, fuel ≤ k → c.processIncoming (some nc) fuel = none)
      ∧ ∀ fuel, c.processIncoming (some nc) (fuel + k)
          = (c.processIncoming (some (nc.afterAttempts k)) fuel).map
              (fun r => (r.1, retryCalls c.debug k ++ r.2)) := by
  refine ⟨?_, fun fuel => processIncoming_after_failures c nc k fuel hfail⟩
  intro fuel hle
  have h := handshakeLoop_retry c nc fuel 0 0 []
    (by
      intro j hj
      simpa using hfail j (by omega))
  unfold Connector.processIncoming
  simp only [Nat.zero_add] at h
  rw [h]
  rfl

/-- C12, amended, at a concrete connection whose first attempt runs into its
deadline. -/
theorem processIncoming_handshake_error_retried_witness :
    connectorEmpty.processIncoming (some connRetry) 1 = none
      ∧ connectorEmpty.processIncoming (some connRetry) (1 + 1)
          = (connectorEmpty.processIncoming (some (connRetry.afterAttempts 1)) 1).map
              (fun r => (r.1, retryCalls connectorEmpty.debug 1 ++ r.2)) :=
  have h := processIncoming_handshake_error_retried connectorEmpty connRetry 1
    (fun j hj => ⟨GoError.DeadlineExceeded, by
      have h0 : j = 0 := by omega
      subst h0
      exact ⟨rfl, by decide⟩⟩)
  ⟨h.1 1 (Nat.le_refl 1), h.2 1⟩

/-- C13: when a handshake attempt fails with end-of-stream (the attempts
before it having failed otherwise), `processIncoming` returns, given fuel for
that many rounds: the registry is as before, the connection has been closed,
and neither the ssh client set-up nor any later step has been attempted. -/
theorem processIncoming_eof_closes_quietly (c : Connector) (nc : NetConn) (k fuel : Nat)
    (hfail : ∀ j, j < k → ∃ e, nc.HandshakeClient j = some e ∧ e ≠ GoError.EOF)
    (heof : nc.HandshakeClient k = some GoError.EOF)
    (hfuel : k < fuel) :
    c.processIncoming (some nc) fuel
        = some (c,
            retryCalls c.debug k
              ++ [ConnCall.PurgeIncoming, ConnCall.HandshakeClient c.debug,
                  ConnCall.Close, ConnCall.Close])
      ∧ ∀ c1 log, c.processIncoming (some nc) fuel = some (c1, log) →
          c1 = c ∧ ConnCall.Close ∈ log ∧ ConnCall.NewClientConn ∉ log
            ∧ ConnCall.SSHls ∉ log ∧ (∀ id, ConnCall.SSHAttach id ∉ log)
            ∧ ConnCall.Broadcast ∉ log := by
  have hrun : c.processIncoming (some nc) fuel
      = some (c,
          retryCalls c.debug k
            ++ [ConnCall.PurgeIncoming, ConnCall.HandshakeClient c.debug,
                ConnCall.Close, ConnCall.Close]) := by
    unfold Connector.processIncoming
    rw [handshakeLoop_eof c nc k fuel hfail heof hfuel]
    simp [deferredClose]
  refine ⟨hrun, ?_⟩
  intro c1 log h
  rw [hrun] at h
  simp only [Option.some.injEq, Prod.mk.injEq] at h
  obtain ⟨h1, h2⟩ := h
  subst h1
  subst h2
  have hno : ∀ call : ConnCall, call ≠ ConnCall.PurgeIncoming →
      call ≠ ConnCall.HandshakeClient c.debug → call ≠ ConnCall.Close →
      call ∉ retryCalls c.debug k
        ++ [ConnCall.PurgeIncoming, ConnCall.HandshakeClient c.debug,
            ConnCall.Close, ConnCall.Close] := by
    intro call n1 n2 n3 hmem
    rcases List.mem_append.mp hmem with hm | hm
    · rcases retryCalls_mem _ _ _ hm with hm | hm
      · exact n1 hm
      · exact n2 hm
    · simp only [List.mem_cons, List.mem_singleton, List.not_mem_nil, or_false] at hm
      rcases hm with hm | hm | hm | hm
      · exact n1 hm
      · exact n2 hm
      · exact n3 hm
      · exact n3 hm
  refine ⟨rfl, by simp, ?_, ?_, ?_, ?_⟩
  · exact hno _ (by simp) (by simp) (by simp)
  · exact hno _ (by simp) (by simp) (by simp)
  · intro id
    exact hno _ (by simp) (by simp) (by simp)
  · exact hno _ (by simp) (by simp) (by simp)

/-- C13 at a concrete connection whose peer hangs up during the second
attempt. -/
theorem processIncoming_eof_closes_quietly_witness :
    connectorEmpty.processIncoming (some connHangsUp) 2
        = some (connectorEmpty,
            retryCalls connectorEmpty.debug 1
              ++ [ConnCall.PurgeIncoming, ConnCall.HandshakeClient connectorEmpty.debug,
                  ConnCall.Close, ConnCall.Close])
      ∧ ∀ c1 log, connectorEmpty.processIncoming (some connHangsUp) 2 = some (c1, log) →
          c1 = connectorEmpty ∧ ConnCall.Close ∈ log ∧ ConnCall.NewClientConn ∉ log
            ∧ ConnCall.SSHls ∉ log ∧ (∀ id, ConnCall.SSHAttach id ∉ log)
            ∧ ConnCall.Broadcast ∉ log :=
  processIncoming_eof_closes_quietly connectorEmpty connHangsUp 1 2
    (fun j hj => ⟨GoError.DeadlineExceeded, by
      have h0 : j = 0 := by omega
      subst h0
      exact ⟨rfl, by decide⟩⟩)
    rfl (by decide)

/-! ## Failed delivery of a signal -/

/-- A round whose delivery fails returns the error wrapped in the message of
the round and makes no wait. -/
theorem shutdownLoop_round_delivery_fails (c : containerBase) (vm : VirtualMachine)
    (wait : Int) (stop rest : List String) (sig : String) (log : Log) (e : GoError)
    (hvm : c.vm = some vm)
    (hdel : vm.ProcessManager log.nProcessManager = some e
      ∨ (vm.ProcessManager log.nProcessManager = none
          ∧ vm.StartProgram log.nStartProgram = some e)) :
    ∃ calls : Log,
      (calls = [Call.ProcessManager]
          ∨ calls = [Call.ProcessManager, Call.StartProgram c.ExecConfig.ID "kill" sig])
        ∧ shutdownLoop c c.ExecConfig.ID wait stop (sig :: rest) log
          = (Exit.ret (some (GoError.errorString
                ("sending kill -" ++ sig ++ " " ++ c.ExecConfig.ID ++ ": " ++ e.Error))),
              log ++ calls) := by
  rcases hdel with hpm | ⟨hpm, hsp⟩
  · refine ⟨[Call.ProcessManager], Or.inl rfl, ?_⟩
    simp [shutdownLoop, containerBase.startGuestProgram, hvm, hpm]
  · refine ⟨[Call.ProcessManager, Call.StartProgram c.ExecConfig.ID "kill" sig],
      Or.inr rfl, ?_⟩
    simp only [Log.nStartProgram] at hsp
    simp [shutdownLoop, containerBase.startGuestProgram, hvm, hpm, hsp, Log.nStartProgram]

/-- C30: at signal position `k` (0 or 1), reached after rounds that timed
out, when the delivery of the signal `sig` fails with `e` (the process manager
cannot be had, or the program cannot be started), `shutdown` returns the error
with message "sending kill -<sig> <id>: <message of e>", having made no wait
for this signal and no later delivery; `stop` then issues the hard power-off
as its next call. -/
theorem shutdown_delivery_failure_returns (key : String) (c : containerBase)
    (vm : VirtualMachine) (cs : SessionConfig) (waitTime : Option Int) (k : Nat)
    (e : GoError) (sig : String)
    (hvm : c.vm = some vm)
    (hcs : c.ExecConfig.Sessions c.ExecConfig.ID = some cs)
    (hk : k < 2)
    (hsig : (stopSignals cs)[k]? = some sig)
    (hpm : ∀ n, n < k → vm.ProcessManager n = none)
    (hsp : ∀ n, n < k → vm.StartProgram n = none)
    (hto : ∀ n, n < k → ∃ t, vm.WaitForPowerState n = ⟨some t, some t⟩)
    (hdel : vm.ProcessManager k = some e
      ∨ (vm.ProcessManager k = none ∧ vm.StartProgram k = some e)) :
    ∃ calls : Log,
      (calls = [Call.ProcessManager]
          ∨ calls = [Call.ProcessManager, Call.StartProgram c.ExecConfig.ID "kill" sig])
        ∧ c.shutdown waitTime []
          = (Exit.ret (some (GoError.errorString
                ("sending kill -" ++ sig ++ " " ++ c.ExecConfig.ID ++ ": " ++ e.Error))),
              roundsLog c.ExecConfig.ID (shutdownWait waitTime) ((stopSignals cs).take k)
                ++ calls)
        ∧ (GoError.errorString
              ("sending kill -" ++ sig ++ " " ++ c.ExecConfig.ID ++ ": " ++ e.Error)).Error
            = "sending kill -" ++ sig ++ " " ++ c.ExecConfig.ID ++ ": " ++ e.Error
        ∧ (c.stop key waitTime []).2
          = roundsLog c.ExecConfig.ID (shutdownWait waitTime) ((stopSignals cs).take k)
              ++ calls ++ [Call.PowerOff] := by
  have hk01 : k = 0 ∨ k = 1 := by omega
  have hshut : ∃ calls : Log,
      (calls = [Call.ProcessManager]
          ∨ calls = [Call.ProcessManager, Call.StartProgram c.ExecConfig.ID "kill" sig])
        ∧ c.shutdown waitTime []
          = (Exit.ret (some (GoError.errorString
                ("sending kill -" ++ sig ++ " " ++ c.ExecConfig.ID ++ ": " ++ e.Error))),
              roundsLog c.ExecConfig.ID (shutdownWait waitTime) ((stopSignals cs).take k)
                ++ calls) := by
    rw [shutdown_eq_loop c vm cs waitTime [] hvm hcs]
    rw [stopSignals_eq] at hsig ⊢
    rcases hk01 with rfl | rfl
    · have hs : (if cs.StopSignal = "" then "TERM" else cs.StopSignal) = sig := by
        simpa using hsig
      rw [hs]
      obtain ⟨calls, hc, hrun⟩ :=
        shutdownLoop_round_delivery_fails c vm (shutdownWait waitTime) [sig, "KILL"] ["KILL"]
          sig [] e hvm (by simpa using hdel)
      exact ⟨calls, hc, by simpa [roundsLog] using hrun⟩
    · have hs : "KILL" = sig := by simpa using hsig
      subst hs
      obtain ⟨t, ht⟩ := hto 0 (by decide)
      rw [shutdownLoop_round_timeout c vm _ _ _ _ [] t hvm (hpm 0 (by decide))
        (hsp 0 (by decide)) ht]
      obtain ⟨calls, hc, hrun⟩ :=
        shutdownLoop_round_delivery_fails c vm (shutdownWait waitTime)
          [if cs.StopSignal = "" then "TERM" else cs.StopSignal, "KILL"] [] "KILL"
          ([] ++ roundCalls c.ExecConfig.ID (shutdownWait waitTime)
            (if cs.StopSignal = "" then "TERM" else cs.StopSignal)) e hvm
          (by simpa using hdel)
      exact ⟨calls, hc, by simpa [roundsLog] using hrun⟩
  obtain ⟨calls, hc, hrun⟩ := hshut
  refine ⟨calls, hc, hrun, rfl, ?_⟩
  exact stop_log_of_shutdown_failed key c vm waitTime _ _ hvm hrun

/-- C30 at a concrete container whose guest refuses to start a program. -/
theorem shutdown_delivery_failure_returns_witness :
    ∃ calls : Log,
      (calls = [Call.ProcessManager]
          ∨ calls = [Call.ProcessManager, Call.StartProgram "c1" "kill" "TERM"])
        ∧ (baseOf vmNoGuestProgram).shutdown none []
          = (Exit.ret (some (GoError.errorString
                ("sending kill -" ++ "TERM" ++ " " ++ "c1" ++ ": "
                  ++ (GoError.backend "guest operations unavailable").Error))),
              roundsLog "c1" (shutdownWait none) ((stopSignals ⟨""⟩).take 0) ++ calls)
        ∧ (GoError.errorString
              ("sending kill -" ++ "TERM" ++ " " ++ "c1" ++ ": "
                ++ (GoError.backend "guest operations unavailable").Error)).Error
            = "sending kill -" ++ "TERM" ++ " " ++ "c1" ++ ": "
                ++ (GoError.backend "guest operations unavailable").Error
        ∧ ((baseOf vmNoGuestProgram).stop "msg.suspend.powerOff.notsuspended" none []).2
          = roundsLog "c1" (shutdownWait none) ((stopSignals ⟨""⟩).take 0)
              ++ calls ++ [Call.PowerOff] :=
  shutdown_delivery_failure_returns "msg.suspend.powerOff.notsuspended"
    (baseOf vmNoGuestProgram) vmNoGuestProgram ⟨""⟩ none 0
    (GoError.backend "guest operations unavailable") "TERM" rfl rfl (by decide) (by decide)
    (fun _ h => absurd h (Nat.not_lt_zero _)) (fun _ h => absurd h (Nat.not_lt_zero _))
    (fun _ h => absurd h (Nat.not_lt_zero _)) (Or.inr ⟨rfl, rfl⟩)

/-! ## Partial insertion and the registry invariant -/

/-- When the attach at position `m` is the first to fail, the attach loop ends
with that error, with the registry that the attaches before `m` produce, and
with the failed attach as its last call. -/
theorem attachLoop_first_failure (nc : NetConn) (sess : Nat → SessionInteraction)
    (e : GoError) :
    ∀ (ids : List String) (m n : Nat) (c : Connector) (log : List ConnCall) (id : String),
      ids[m]? = some id →
      (∀ j, j < m → nc.SSHAttach (n + j) = .ok (sess (n + j))) →
      nc.SSHAttach (n + m) = .error e →
      attachLoop nc ids n c log
        = (some e, (attachLoop nc (ids.take m) n c log).2.1,
            log ++ attachCalls (ids.take m) ++ [ConnCall.SSHAttach id]) := by
  intro ids
  induction ids with
  | nil => intro m n c log id hid; simp at hid
  | cons a rest ih =>
    intro m n c log id hid hok hbad
    cases m with
    | zero =>
      have ha : a = id := by simpa using hid
      have h0 : nc.SSHAttach n = .error e := by simpa using hbad
      simp [attachLoop, h0, attachCalls, ha]
    | succ m0 =>
      have h0 : nc.SSHAttach n = .ok (sess n) := by simpa using hok 0 (Nat.succ_pos m0)
      have hid0 : rest[m0]? = some id := by simpa using hid
      have hok0 : ∀ j, j < m0 → nc.SSHAttach (n + 1 + j) = .ok (sess (n + 1 + j)) := by
        intro j hj
        have := hok (j + 1) (by omega)
        have e1 : n + (j + 1) = n + 1 + j := by omega
        rwa [e1] at this
      have hbad0 : nc.SSHAttach (n + 1 + m0) = .error e := by
        have e1 : n + (m0 + 1) = n + 1 + m0 := by omega
        rwa [e1] at hbad
      have hstep := ih m0 (n + 1)
        { c with connections := ConnMap.set c.connections a (some ⟨sess n, a⟩) }
        (log ++ [ConnCall.SSHAttach a] ++ [ConnCall.Broadcast]) id hid0 hok0 hbad0
      simp only [attachLoop, h0, List.take_succ_cons]
      rw [hstep]
      simp [attachCalls]

/-- C28: once the handshake has come to succeed, (1) when setting up the ssh
client fails, or (2) when listing the ids fails, `processIncoming` returns with
the registry as it was and closes the connection; (3) when the ids `ids` are
listed and the attach at position `m` is the first to fail, it returns with the
registry that the attaches before `m` alone produce: every id among the first
`m` has one entry, holding the session of its last occurrence among them;
every other id, the failed one and those after it included, has the entry it
had before; the failed attach is the last attach made and the connection is
closed. -/
theorem processIncoming_partial_insertion (c : Connector) (nc : NetConn) (k fuel : Nat)
    (hfail : ∀ j, j < k → ∃ e, nc.HandshakeClient j = some e ∧ e ≠ GoError.EOF)
    (hok : nc.HandshakeClient k = none)
    (hfuel : k < fuel) :
    (∀ e, nc.NewClientConn = some e →
        c.processIncoming (some nc) fuel
          = some (c,
              retryCalls c.debug k
                ++ [ConnCall.PurgeIncoming, ConnCall.HandshakeClient c.debug,
                    ConnCall.NewClientConn, ConnCall.Close]))
      ∧ (∀ e, nc.NewClientConn = none → nc.SSHls = .error e →
        c.processIncoming (some nc) fuel
          = some (c,
              retryCalls c.debug k
                ++ [ConnCall.PurgeIncoming, ConnCall.HandshakeClient c.debug,
                    ConnCall.NewClientConn, ConnCall.SSHls, ConnCall.Close]))
      ∧ (∀ (ids : List String) (m : Nat) (id : String) (e : GoError)
          (sess : Nat → SessionInteraction),
        nc.NewClientConn = none → nc.SSHls = .ok ids → ids[m]? = some id →
        (∀ j, j < m → nc.SSHAttach j = .ok (sess j)) → nc.SSHAttach m = .error e →
        ∃ c1 : Connector,
          c.processIncoming (some nc) fuel
              = some (c1,
                  retryCalls c.debug k
                    ++ [ConnCall.PurgeIncoming, ConnCall.HandshakeClient c.debug,
                        ConnCall.NewClientConn, ConnCall.SSHls]
                    ++ attachCalls (ids.take m)
                    ++ [ConnCall.SSHAttach id, ConnCall.Close])
            ∧ (∀ x, x ∈ ids.take m → ConnMap.keyCount c1.connections x = 1)
            ∧ (∀ (j : Nat) (x : String), (ids.take m)[j]? = some x →
                (∀ j' : Nat, j < j' → (ids.take m)[j']? ≠ some x) →
                ConnMap.lookup c1.connections x = some (some ⟨sess j, x⟩))
            ∧ (∀ x, x ∉ ids.take m →
                ConnMap.lookup c1.connections x = ConnMap.lookup c.connections x
                  ∧ ConnMap.keyCount c1.connections x = ConnMap.keyCount c.connections x)) := by
  have hloop := handshakeLoop_aligned c nc k fuel hfail hok hfuel
  refine ⟨?_, ?_, ?_⟩
  · intro e hcc
    unfold Connector.processIncoming
    rw [hloop]
    simp [sessionSetup, hcc, deferredClose]
  · intro e hcc hls
    unfold Connector.processIncoming
    rw [hloop]
    simp [sessionSetup, hcc, hls, deferredClose]
  · intro ids m id e sess hcc hls hid hatt hbad
    have hlen : (ids.take m).length ≤ m := by simp
    obtain ⟨a1, a2, a3, a4, a5⟩ :=
      attachLoop_all_ok nc sess (ids.take m) 0 c
        (retryCalls c.debug k
          ++ [ConnCall.PurgeIncoming, ConnCall.HandshakeClient c.debug]
          ++ [ConnCall.NewClientConn] ++ [ConnCall.SSHls])
        (by
          intro j hj
          simpa using hatt j (by omega))
    have hrun := attachLoop_first_failure nc sess e ids m 0 c
        (retryCalls c.debug k
          ++ [ConnCall.PurgeIncoming, ConnCall.HandshakeClient c.debug]
          ++ [ConnCall.NewClientConn] ++ [ConnCall.SSHls]) id hid
        (by simpa using hatt) (by simpa using hbad)
    refine ⟨(attachLoop nc (ids.take m) 0 c
        (retryCalls c.debug k
          ++ [ConnCall.PurgeIncoming, ConnCall.HandshakeClient c.debug]
          ++ [ConnCall.NewClientConn] ++ [ConnCall.SSHls])).2.1, ?_, a4, ?_, a3⟩
    · unfold Connector.processIncoming
      rw [hloop]
      simp only [sessionSetup, hcc, hls, hrun, deferredClose]
      simp
    · intro j x hj hlast
      have h := a5 j x hj hlast
      simp only [Nat.zero_add] at h
      exact h

/-- C28 at a concrete connection: the attach to `c1` succeeds, the attach to
`c2` fails. -/
theorem processIncoming_partial_insertion_witness :
    ∃ c1 : Connector,
      connectorEmpty.processIncoming (some connSecondAttachFails) 1
          = some (c1,
              retryCalls connectorEmpty.debug 0
                ++ [ConnCall.PurgeIncoming, ConnCall.HandshakeClient connectorEmpty.debug,
                    ConnCall.NewClientConn, ConnCall.SSHls]
                ++ attachCalls (["c1", "c2"].take 1)
                ++ [ConnCall.SSHAttach "c2", ConnCall.Close])
        ∧ (∀ x, x ∈ ["c1", "c2"].take 1 → ConnMap.keyCount c1.connections x = 1)
        ∧ (∀ (j : Nat) (x : String), (["c1", "c2"].take 1)[j]? = some x →
            (∀ j' : Nat, j < j' → (["c1", "c2"].take 1)[j']? ≠ some x) →
            ConnMap.lookup c1.connections x = some (some ⟨sessionS7, x⟩))
        ∧ (∀ x, x ∉ ["c1", "c2"].take 1 →
            ConnMap.lookup c1.connections x = ConnMap.lookup connectorEmpty.connections x
              ∧ ConnMap.keyCount c1.connections x
                  = ConnMap.keyCount connectorEmpty.connections x) :=
  (processIncoming_partial_insertion connectorEmpty connSecondAttachFails 0 1
      (fun _ h => absurd h (Nat.not_lt_zero _)) rfl (by decide)).2.2
    ["c1", "c2"] 1 "c2" (GoError.backend "channel refused") (fun _ => sessionS7)
    rfl rfl rfl
    (fun j hj => by
      have h0 : j = 0 := by omega
      subst h0
      rfl)
    rfl

theorem ConnMap.lookup_mem (m : ConnMap) (k : String) (v : Option Connection)
    (h : ConnMap.lookup m k = some v) : (k, v) ∈ m := by
  induction m with
  | nil => simp [ConnMap.lookup] at h
  | cons e rest ih =>
    obtain ⟨k1, v1⟩ := e
    by_cases hk : k1 = k
    · simp [ConnMap.lookup, hk] at h
      simp [hk, h]
    · simp [ConnMap.lookup, hk] at h
      exact List.mem_cons_of_mem _ (ih h)

theorem ConnMap.wellFormed_delete (m : ConnMap) (id : String) (h : ConnMap.WellFormed m) :
    ConnMap.WellFormed (ConnMap.delete m id) := by
  intro k v hmem
  exact h k v (List.mem_of_mem_filter hmem)

theorem ConnMap.wellFormed_set (m : ConnMap) (id : String) (si : SessionInteraction)
    (h : ConnMap.WellFormed m) :
    ConnMap.WellFormed (ConnMap.set m id (some ⟨si, id⟩)) := by
  intro k v hmem
  rcases List.mem_cons.mp hmem with heq | hrest
  · simp only [Prod.mk.injEq] at heq
    obtain ⟨h1, h2⟩ := heq
    subst h1
    subst h2
    exact ⟨⟨si, k⟩, rfl, rfl⟩
  · exact ConnMap.wellFormed_delete m id h k v hrest

theorem attachLoop_wellFormed (nc : NetConn) :
    ∀ (ids : List String) (n : Nat) (c : Connector) (log : List ConnCall),
      ConnMap.WellFormed c.connections →
      ConnMap.WellFormed (attachLoop nc ids n c log).2.1.connections := by
  intro ids
  induction ids with
  | nil => intro n c log h; exact h
  | cons a rest ih =>
    intro n c log h
    simp only [attachLoop]
    cases hs : nc.SSHAttach n with
    | error e => exact h
    | ok si => exact ih (n + 1) _ _ (ConnMap.wellFormed_set c.connections a si h)

theorem sessionSetup_wellFormed (c : Connector) (nc : NetConn) (log : List ConnCall)
    (h : ConnMap.WellFormed c.connections) :
    ConnMap.WellFormed (sessionSetup c nc log).1.connections := by
  unfold sessionSetup
  cases h1 : nc.NewClientConn with
  | some e => exact h
  | none =>
    cases h2 : nc.SSHls with
    | error e => exact h
    | ok ids => exact attachLoop_wellFormed nc ids 0 c _ h

theorem processIncoming_wellFormed (c : Connector) (conn : Option NetConn) (fuel : Nat)
    (c1 : Connector) (log : List ConnCall)
    (hrun : c.processIncoming conn fuel = some (c1, log))
    (h : ConnMap.WellFormed c.connections) : ConnMap.WellFormed c1.connections := by
  unfold Connector.processIncoming at hrun
  cases hl : handshakeLoop c conn fuel 0 [] with
  | none => simp [hl] at hrun
  | some r =>
    obtain ⟨exit, log0⟩ := r
    cases exit with
    | noConn =>
      simp [hl] at hrun
      rw [← hrun.1]
      exact h
    | eof =>
      simp [hl] at hrun
      rw [← hrun.1]
      exact h
    | aligned =>
      cases conn with
      | none =>
        simp [hl] at hrun
        rw [← hrun.1]
        exact h
      | some nc =>
        simp [hl] at hrun
        have hc : c1 = (sessionSetup c nc log0).1 := by rw [hrun]
        rw [hc]
        exact sessionSetup_wellFormed c nc log0 h

theorem Remove_wellFormed (c : Connector) (id : String)
    (h : ConnMap.WellFormed c.connections) :
    ConnMap.WellFormed (c.Remove id).2.1.connections := by
  unfold Connector.Remove
  cases hi : ConnMap.index c.connections id with
  | none => exact h
  | some conn =>
    by_cases hid : conn.id = id <;> simp [hid] <;>
      exact ConnMap.wellFormed_delete c.connections id h

theorem reachable_wellFormed (c : Connector) (h : Reachable c) :
    ConnMap.WellFormed c.connections := by
  induction h with
  | new debug =>
    intro k v hmem
    simp [NewConnector] at hmem
  | processIncoming c conn fuel c1 log _ hrun ih =>
    exact processIncoming_wellFormed c conn fuel c1 log hrun ih
  | remove c id _ ih => exact Remove_wellFormed c id ih

/-- C27: in every registry reachable from `NewConnector` by runs of
`processIncoming` and calls of `Remove`, every entry stored under a key is a
connection that is not nil and records that key as its id.  Hence `Remove(id)`
on an id that has an entry closes the session of that entry and no other,
once, returns exactly what that close returned, deletes the entry, and leaves
the entry of every other id as it was. -/
theorem reachable_entries_record_their_key (c : Connector) (h : Reachable c) :
    (∀ k v, ConnMap.lookup c.connections k = some v →
        ∃ conn : Connection, v = some conn ∧ conn.id = k)
      ∧ (∀ k v, (k, v) ∈ c.connections → ∃ conn : Connection, v = some conn ∧ conn.id = k)
      ∧ ∀ id conn, ConnMap.index c.connections id = some conn →
          conn.id = id
            ∧ c.Remove id
              = (conn.spty.Close,
                  { c with connections := ConnMap.delete c.connections id }, [conn.spty])
            ∧ ConnMap.lookup (c.Remove id).2.1.connections id = none
            ∧ ∀ other, other ≠ id →
                ConnMap.lookup (c.Remove id).2.1.connections other
                  = ConnMap.lookup c.connections other := by
  have hwf := reachable_wellFormed c h
  refine ⟨fun k v hl => hwf k v (ConnMap.lookup_mem _ k v hl), hwf, ?_⟩
  intro id conn hidx
  have hl : ConnMap.lookup c.connections id = some (some conn) := by
    unfold ConnMap.index at hidx
    cases hl : ConnMap.lookup c.connections id with
    | none => simp [hl] at hidx
    | some v =>
      rw [hl] at hidx
      simp only at hidx
      rw [hidx]
  obtain ⟨conn1, h1, h2⟩ := hwf id (some conn) (ConnMap.lookup_mem _ id _ hl)
  have hid : conn.id = id := by
    simp only [Option.some.injEq] at h1
    rw [h1]
    exact h2
  have hrem : c.Remove id
      = (conn.spty.Close, { c with connections := ConnMap.delete c.connections id },
          [conn.spty]) := by
    simp [Connector.Remove, hidx, hid]
  refine ⟨hid, hrem, ?_, ?_⟩
  · rw [hrem]
    exact ConnMap.lookup_delete_self c.connections id
  · intro other hne
    rw [hrem]
    exact ConnMap.lookup_delete_ne c.connections id other (fun h => hne h.symm)

/-- C27 at the registry that a run of `processIncoming` on an empty connector
produces. -/
theorem reachable_entries_record_their_key_witness :
    (∀ k v, ConnMap.lookup
          (⟨[("c1", some ⟨sessionS7, "c1"⟩)], false⟩ : Connector).connections k = some v →
        ∃ conn : Connection, v = some conn ∧ conn.id = k)
      ∧ (∀ k v, (k, v) ∈ (⟨[("c1", some ⟨sessionS7, "c1"⟩)], false⟩ : Connector).connections →
          ∃ conn : Connection, v = some conn ∧ conn.id = k)
      ∧ ∀ id conn,
          ConnMap.index (⟨[("c1", some ⟨sessionS7, "c1"⟩)], false⟩ : Connector).connections id
            = some conn →
          conn.id = id
            ∧ (⟨[("c1", some ⟨sessionS7, "c1"⟩)], false⟩ : Connector).Remove id
              = (conn.spty.Close,
                  { (⟨[("c1", some ⟨sessionS7, "c1"⟩)], false⟩ : Connector) with
                    connections := ConnMap.delete
                      (⟨[("c1", some ⟨sessionS7, "c1"⟩)], false⟩ : Connector).connections id },
                  [conn.spty])
            ∧ ConnMap.lookup
                ((⟨[("c1", some ⟨sessionS7, "c1"⟩)], false⟩ : Connector).Remove id).2.1.connections
                id = none
            ∧ ∀ other, other ≠ id →
                ConnMap.lookup
                    ((⟨[("c1", some ⟨sessionS7, "c1"⟩)], false⟩ :
                      Connector).Remove id).2.1.connections other
                  = ConnMap.lookup
                      (⟨[("c1", some ⟨sessionS7, "c1"⟩)], false⟩ : Connector).connections other :=
  reachable_entries_record_their_key _
    (Reachable.processIncoming (NewConnector false) (some connRetry) 2 _
      [ConnCall.PurgeIncoming, ConnCall.HandshakeClient false,
       ConnCall.PurgeIncoming, ConnCall.HandshakeClient false,
       ConnCall.NewClientConn, ConnCall.SSHls,
       ConnCall.SSHAttach "c1", ConnCall.Broadcast]
      (Reachable.new false) (by decide))

/-! ## Child pid table -/

theorem PidTable.lookup_pid_deleted (t : PidTable) (pid : Int) :
    PidTable.lookup (PidTable.delete t pid) pid = none := by
  induction t with
  | nil => rfl
  | cons e rest ih =>
    obtain ⟨k, v⟩ := e
    by_cases hk : k = pid
    · simpa [PidTable.delete, List.filter, hk] using ih
    · have hf : PidTable.delete ((k, v) :: rest) pid = (k, v) :: PidTable.delete rest pid := by
        simp [PidTable.delete, List.filter, hk]
      rw [hf]
      simp [PidTable.lookup, hk, ih]

theorem PidTable.lookup_other_pid_kept (t : PidTable) (pid q : Int) (h : pid ≠ q) :
    PidTable.lookup (PidTable.delete t pid) q = PidTable.lookup t q := by
  induction t with
  | nil => rfl
  | cons e rest ih =>
    obtain ⟨k, v⟩ := e
    by_cases hk : k = pid
    · have hne : k ≠ q := by rw [hk]; exact h
      have hf : PidTable.delete ((k, v) :: rest) pid = PidTable.delete rest pid := by
        simp [PidTable.delete, List.filter, hk]
      rw [hf, ih]
      simp [PidTable.lookup, hne]
    · have hf : PidTable.delete ((k, v) :: rest) pid = (k, v) :: PidTable.delete rest pid := by
        simp [PidTable.delete, List.filter, hk]
      rw [hf]
      simp [PidTable.lookup, ih]

theorem PidTable.delete_of_lookup_none (t : PidTable) (pid : Int)
    (h : PidTable.lookup t pid = none) : PidTable.delete t pid = t := by
  induction t with
  | nil => rfl
  | cons e rest ih =>
    obtain ⟨k, v⟩ := e
    by_cases hk : k = pid
    · simp [PidTable.lookup, hk] at h
    · simp only [PidTable.lookup, hk, if_false] at h
      have hf : PidTable.delete ((k, v) :: rest) pid = (k, v) :: PidTable.delete rest pid := by
        simp [PidTable.delete, List.filter, hk]
      rw [hf, ih h]

theorem PidTable.lookup_none_of_not_mem (t : PidTable) (pid : Int)
    (h : pid ∉ t.map Prod.fst) : PidTable.lookup t pid = none := by
  induction t with
  | nil => rfl
  | cons e rest ih =>
    obtain ⟨k, v⟩ := e
    simp only [List.map_cons, List.mem_cons, not_or] at h
    have hk : k ≠ pid := fun hk => h.1 hk.symm
    simp [PidTable.lookup, hk, ih h.2]

theorem PidTable.length_delete (t : PidTable) (pid : Int) (cmd : Option Cmd)
    (hnd : (t.map Prod.fst).Nodup) (h : PidTable.lookup t pid = some cmd) :
    (PidTable.delete t pid).length + 1 = t.length := by
  induction t with
  | nil => simp [PidTable.lookup] at h
  | cons e rest ih =>
    obtain ⟨k, v⟩ := e
    simp only [List.map_cons, List.nodup_cons] at hnd
    by_cases hk : k = pid
    · have hf : PidTable.delete ((k, v) :: rest) pid = PidTable.delete rest pid := by
        simp [PidTable.delete, List.filter, hk]
      have hnone : PidTable.lookup rest pid = none :=
        PidTable.lookup_none_of_not_mem rest pid (by rw [← hk]; exact hnd.1)
      rw [hf, PidTable.delete_of_lookup_none rest pid hnone]
      simp
    · simp only [PidTable.lookup, hk, if_false] at h
      have hf : PidTable.delete ((k, v) :: rest) pid = (k, v) :: PidTable.delete rest pid := by
        simp [PidTable.delete, List.filter, hk]
      rw [hf]
      simp only [List.length_cons]
      rw [ih hnd.2 h]

/-- C21: on a table that holds each pid once, `RemoveChildPid(pid)` returns the
stored command and true when the pid is present; afterwards the pid is absent,
every other pid has the entry it had, and `LenChildPid` is one less.  When the
pid is absent it returns nil and false, and the table, hence `LenChildPid`, is
as before. -/
theorem RemoveChildPid_deletes_and_returns (t : PidTable) (pid : Int)
    (hnd : (t.map Prod.fst).Nodup) :
    (∀ cmd, PidTable.lookup t pid = some cmd →
        (RemoveChildPid t pid).1 = (cmd, true)
          ∧ PidTable.lookup (RemoveChildPid t pid).2 pid = none
          ∧ (∀ q, q ≠ pid →
              PidTable.lookup (RemoveChildPid t pid).2 q = PidTable.lookup t q)
          ∧ LenChildPid (RemoveChildPid t pid).2 = LenChildPid t - 1)
      ∧ (PidTable.lookup t pid = none →
          RemoveChildPid t pid = ((none, false), t)
            ∧ LenChildPid (RemoveChildPid t pid).2 = LenChildPid t)
      ∧ ((RemoveChildPid t pid).2.map Prod.fst).Nodup := by
  refine ⟨?_, ?_, ?_⟩
  · intro cmd h
    refine ⟨by simp [RemoveChildPid, h], PidTable.lookup_pid_deleted t pid, ?_, ?_⟩
    · intro q hq
      exact PidTable.lookup_other_pid_kept t pid q (fun e => hq e.symm)
    · have hl := PidTable.length_delete t pid cmd hnd h
      simp only [LenChildPid, RemoveChildPid]
      omega
  · intro h
    have hd := PidTable.delete_of_lookup_none t pid h
    simp [RemoveChildPid, h, hd]
  · simp only [RemoveChildPid, PidTable.delete]
    exact (List.Nodup.sublist (List.Sublist.map Prod.fst (List.filter_sublist t)) hnd)

/-- C21 at a table with two children. -/
theorem RemoveChildPid_deletes_and_returns_witness :
    RemoveChildPid [(101, some ⟨"/bin/sh", ["-c", "true"]⟩), (102, none)] 101
      = ((some ⟨"/bin/sh", ["-c", "true"]⟩, true), [(102, none)])
      ∧ LenChildPid (RemoveChildPid [(101, some ⟨"/bin/sh", ["-c", "true"]⟩), (102, none)] 101).2
          = LenChildPid [(101, some ⟨"/bin/sh", ["-c", "true"]⟩), (102, none)] - 1 :=
  have h := (RemoveChildPid_deletes_and_returns
    [(101, some ⟨"/bin/sh", ["-c", "true"]⟩), (102, none)] 101 (by decide)).1
      (some ⟨"/bin/sh", ["-c", "true"]⟩) (by decide)
  ⟨by decide, h.2.2.2⟩

/-! ## PCI slots and wait timeout -/

/-- C22: for every row of the table of `TestSlotToPciPath`, `slotToPCIPath`
returns no error and the path the row expects: slots 0, 32, 33 and 192 give
00:00.0, 00:11.0 with *:00.0, 00:11.0 with *:01.0 and 00:16.0 with *:00.0
under `pciDevPath`; and the function follows the pattern of a device on bus 0
below slot 32 and of a device behind a bridge from slot 32 on. -/
theorem slotToPCIPath_passes_test (pciDevPath : String) :
    (∀ te, te ∈ TestSlotToPciPath.tests →
        slotToPCIPath pciDevPath te.1 = (pathJoin (pciDevPath :: te.2), none))
      ∧ (∀ s : Nat, s < 32 →
          slotToPCIPath pciDevPath s
            = (pathJoin [pciDevPath, "0000:00:" ++ fmtHex02 s ++ ".0"], none))
      ∧ (∀ s : Nat, 32 ≤ s →
          slotToPCIPath pciDevPath s
            = (pathJoin [pciDevPath, "0000:00:" ++ fmtHex02 (0x11 + s / 32 - 1) ++ ".0",
                "0000:*:" ++ fmtHex02 (s % 32) ++ ".0"], none)) := by
  refine ⟨?_, ?_, ?_⟩
  · intro te hte
    simp only [TestSlotToPciPath.tests, List.mem_cons, List.mem_singleton,
      List.not_mem_nil, or_false] at hte
    have h0 : fmtHex02 0 = "00" := by decide
    have h1 : fmtHex02 1 = "01" := by decide
    have h17 : fmtHex02 17 = "11" := by decide
    have h22 : fmtHex02 22 = "16" := by decide
    rcases hte with rfl | rfl | rfl | rfl
    · simp [slotToPCIPath, h0]
    · simp [slotToPCIPath, h0, h17]
    · simp [slotToPCIPath, h1, h17]
    · simp [slotToPCIPath, h0, h22]
  · intro s hs
    simp [slotToPCIPath, hs]
  · intro s hs
    have : ¬ s < 32 := by omega
    simp [slotToPCIPath, this]

/-- Against C23 as stated: for the positive 64-bit timeout 9223372037 the
product with one second does not fit 64 bits; the derived duration is
negative and is not the timeout times one second. -/
theorem containerWaitHandlerTimeout_overflows :
    (0 : Int) < 9223372037 ∧ (9223372037 : Int) < 2 ^ 63
      ∧ containerWaitHandlerTimeout 9223372037 = -9223372036709551616
      ∧ containerWaitHandlerTimeout 9223372037 ≠ 9223372037 * Second := by
  decide

/-- C23, amended: the wait is bounded by 180 seconds (3 minutes) when the
requested timeout is zero or negative, and by exactly the timeout times one
second when it is positive and at most 9223372036, the largest number of
seconds whose nanoseconds fit 64 bits. -/
theorem containerWaitHandlerTimeout_within_range (Timeout : Int)
    (hlo : -2 ^ 63 ≤ Timeout) (hhi : Timeout ≤ 9223372036) :
    (Timeout ≤ 0 → containerWaitHandlerTimeout Timeout = 180 * Second)
      ∧ (0 < Timeout → containerWaitHandlerTimeout Timeout = Timeout * Second)
      ∧ containerWaitTimeout = 180 * Second := by
  refine ⟨?_, ?_, by decide⟩
  · intro h
    have hn : ¬ Timeout > 0 := by omega
    simp only [containerWaitHandlerTimeout, hn, if_false]
    decide
  · intro h
    simp only [containerWaitHandlerTimeout, h, gt_iff_lt, if_true]
    unfold wrapInt64 Second
    norm_num at hlo ⊢
    omega

/-- C23, amended, at the largest timeout in range. -/
theorem containerWaitHandlerTimeout_within_range_witness :
    ((9223372036 : Int) ≤ 0 → containerWaitHandlerTimeout 9223372036 = 180 * Second)
      ∧ ((0 : Int) < 9223372036 →
          containerWaitHandlerTimeout 9223372036 = 9223372036 * Second)
      ∧ containerWaitTimeout = 180 * Second :=
  containerWaitHandlerTimeout_within_range 9223372036 (by norm_num) (by norm_num)

/-! ## Task activation -/

/-- C24: for a handle whose container is suspended, hence not running,
`toggleActive` looks the task id up in the ephemeral set `Execs`, not in the
persistent set `Sessions`: a task that only the persistent set holds is
reported unknown, and when both sets hold the task it is the one of the
ephemeral set that is made active. -/
theorem toggleActive_suspended_uses_ephemeral_set :
    Task.toggleActive (Task.Value.handle Task.handleSuspended) "t1" true
        = Exit.ret (none, some (GoError.errorString "unknown persistent task ID: t1"))
      ∧ Task.toggleActive (Task.Value.handle Task.handleSuspendedBoth) "t1" true
        = Exit.ret
            (some
              { ExecConfig := some
                  { Sessions := [("t1", some ⟨"t1", false⟩)],
                    Execs := [("t1", some ⟨"t1", true⟩)] },
                Runtime := some ⟨PowerState.suspended⟩,
                reloaded := true },
              none) := by
  decide

/-- What holds of `toggleActive` for every handle with its configuration: the
set searched is `Execs` exactly when there is a runtime snapshot whose power
state is not powered-off, and `Sessions` otherwise; an id missing from that
set gives an error, and a value that is not a handle gives an error. -/
theorem toggleActive_selected_set (handle : Task.Handle) (cfg : Task.ExecutorConfig)
    (id : String) (active : Bool) (hcfg : handle.ExecConfig = some cfg) :
    (∀ text, Task.toggleActive (Task.Value.other text) id active
        = Exit.ret (none,
            some (GoError.errorString "Type assertion failed for (*exec.Handle)(nil)")))
      ∧ ((handle.Runtime = none ∨ handle.Runtime = some ⟨PowerState.poweredOff⟩) →
          Task.Tasks.lookup cfg.Sessions id = none →
          Task.toggleActive (Task.Value.handle handle) id active
            = Exit.ret (none, some (GoError.errorString ("unknown persistent task ID: " ++ id))))
      ∧ ((handle.Runtime = none ∨ handle.Runtime = some ⟨PowerState.poweredOff⟩) →
          ∀ t, Task.Tasks.lookup cfg.Sessions id = some (some t) →
          Task.toggleActive (Task.Value.handle handle) id active
            = Exit.ret
                (some { handle with
                    ExecConfig := some
                      { cfg with Sessions := Task.Tasks.setActive cfg.Sessions id active },
                    reloaded := true },
                  none))
      ∧ (∀ st, st ≠ PowerState.poweredOff → handle.Runtime = some ⟨st⟩ →
          ∀ t, Task.Tasks.lookup cfg.Execs id = some (some t) →
          Task.toggleActive (Task.Value.handle handle) id active
            = Exit.ret
                (some { handle with
                    ExecConfig := some
                      { cfg with Execs := Task.Tasks.setActive cfg.Execs id active },
                    reloaded := true },
                  none)) := by
  refine ⟨fun _ => rfl, ?_, ?_, ?_⟩
  · intro hrt hl
    rcases hrt with hrt | hrt <;> simp [Task.toggleActive, hcfg, hrt, hl]
  · intro hrt t hl
    rcases hrt with hrt | hrt <;> simp [Task.toggleActive, hcfg, hrt, hl]
  · intro st hst hrt t hl
    simp [Task.toggleActive, hcfg, hrt, hst, hl]

/-! ## Keys of the extra configuration -/

/-- C25: with the valid, persistent scope list ["read-only"], the prefix
"guestinfox" and the key "k", `calculateKey` returns "guestinfox/k", which
does not begin with "guestinfo.": a prefix that begins with the letters of
"guestinfo" is taken as exposed already, whatever follows them. -/
theorem calculateKey_exposed_prefix_not_checked :
    calculateScope ["read-only"] = ReadOnly
      ∧ calculateKey ["read-only"] "guestinfox" "k" = Exit.ret "guestinfox/k"
      ∧ HasPrefix "guestinfox/k" "guestinfo." = false
      ∧ calculateKey ["read-write"] "guestinfox" "k" = Exit.ret "guestinfox.k"
      ∧ HasPrefix "guestinfox.k" "guestinfo." = false := by
  decide

/-- C26: the scopes read off a parent key do not give the child the parent's
scope.  The hidden parent key "a" is read as hidden and read-write, and its
child "child" gets the key "guestinfo.a.child" where the scope hidden gives
"a/child"; the read-only parent key "guestinfo.a" is read as read-write, and
its child "c" gets "guestinfo.a.c" where the scope read-only gives
"guestinfo.a/c". -/
theorem calculateScopeFromKey_loses_parent_scope :
    calculateKey ["hidden"] "" "a" = Exit.ret "a"
      ∧ calculateScopeFromKey "a" = ["hidden", "read-write"]
      ∧ calculateKey (calculateScopeFromKey "a") "a" "child" = Exit.ret "guestinfo.a.child"
      ∧ calculateKey ["hidden"] "a" "child" = Exit.ret "a/child"
      ∧ HasPrefix "guestinfo.a.child" "guestinfo" = true
      ∧ calculateKey ["read-only"] "" "a" = Exit.ret "guestinfo.a"
      ∧ calculateScopeFromKey "guestinfo.a" = ["read-write"]
      ∧ calculateKey (calculateScopeFromKey "guestinfo.a") "guestinfo.a" "c"
          = Exit.ret "guestinfo.a.c"
      ∧ calculateKey ["read-only"] "guestinfo.a" "c" = Exit.ret "guestinfo.a/c" := by
  decide

/-- C29: with the scope hidden and the prefix exactly "guestinfo",
`calculateKey` slices the nine characters of its base from offset ten and
panics; it returns no string. -/
theorem calculateKey_hidden_guestinfo_panics :
    calculateKey ["hidden"] "guestinfo" "k" = Exit.panic
      ∧ sliceFrom "guestinfo" (DefaultGuestInfoPrefix.length + 1) = Exit.panic
      ∧ calculateKey [] "guestinfo" "k" = Exit.panic := by
  decide

theorem calculateScopeLoop_unknown (l : List String) :
    ∀ scope, (∃ v, v ∈ l ∧ ¬ knownScope v) → calculateScopeLoop l scope = Invalid := by
  induction l with
  | nil => intro scope h; obtain ⟨v, hv, _⟩ := h; simp at hv
  | cons a rest ih =>
    intro scope h
    obtain ⟨v, hv, hk⟩ := h
    by_cases ha : knownScope a
    · have hrest : ∃ v, v ∈ rest ∧ ¬ knownScope v := by
        rcases List.mem_cons.mp hv with h1 | h1
        · subst h1; exact absurd ha hk
        · exact ⟨v, h1, hk⟩
      unfold calculateScopeLoop
      split_ifs <;> first | exact ih _ hrest | rfl
    · unfold knownScope at ha
      simp only [not_or] at ha
      simp [calculateScopeLoop, ha.1, ha.2.1, ha.2.2.1, ha.2.2.2.1, ha.2.2.2.2]

theorem calculateScopeLoop_nonPersistent (l : List String) :
    ∀ scope, ("non-persistent" ∈ l ∨ scope.testBit 4 = true) →
      calculateScopeLoop l scope = Invalid ∨ (calculateScopeLoop l scope).testBit 4 = true := by
  induction l with
  | nil =>
    intro scope h
    rcases h with h | h
    · simp at h
    · exact Or.inr h
  | cons a rest ih =>
    intro scope h
    unfold calculateScopeLoop
    have hbit : ∀ x, scope.testBit 4 = true → (scope ||| x).testBit 4 = true := by
      intro x hx
      simp [Nat.testBit_lor, hx]
    split_ifs with h1 h2 h3 h4 h5
    · apply ih
      rcases h with h | h
      · rcases List.mem_cons.mp h with e | e
        · exact absurd (h1 ▸ e) (by decide)
        · exact Or.inl e
      · exact Or.inr (hbit _ h)
    · apply ih
      rcases h with h | h
      · rcases List.mem_cons.mp h with e | e
        · exact absurd (h2 ▸ e) (by decide)
        · exact Or.inl e
      · exact Or.inr (hbit _ h)
    · apply ih
      rcases h with h | h
      · rcases List.mem_cons.mp h with e | e
        · exact absurd (h3 ▸ e) (by decide)
        · exact Or.inl e
      · exact Or.inr (hbit _ h)
    · apply ih
      right
      simp [Nat.testBit_lor, NonPersistent]
      right
      decide
    · apply ih
      rcases h with h | h
      · rcases List.mem_cons.mp h with e | e
        · exact absurd (h5 ▸ e) (by decide)
        · exact Or.inl e
      · exact Or.inr (hbit _ h)
    · exact Or.inl rfl

/-- The part of C25 that holds: a scope list with an unknown name or with
"non-persistent" gives the empty key, so the field is skipped. -/
theorem calculateKey_skips_unknown_or_nonPersistent (scopes : List String) (pre key : String)
    (h : (∃ v, v ∈ scopes ∧ ¬ knownScope v) ∨ "non-persistent" ∈ scopes) :
    calculateKey scopes pre key = Exit.ret "" := by
  have hs : calculateScope scopes &&& Invalid ≠ 0 ∨ calculateScope scopes &&& NonPersistent ≠ 0 := by
    unfold calculateScope
    rcases h with h | h
    · left
      rw [calculateScopeLoop_unknown scopes 0 h]
      decide
    · rcases calculateScopeLoop_nonPersistent scopes 0 (Or.inl h) with h1 | h1
      · left
        rw [h1]
        decide
      · right
        intro h0
        have : (calculateScopeLoop scopes 0 &&& NonPersistent).testBit 4 = true := by
          simp [Nat.testBit_and, h1, NonPersistent]
          decide
        rw [h0] at this
        simp at this
  unfold calculateKey
  simp only [hs, if_true]

end Vic
